import Mathlib

/- Verification model of tsvF2mot.py, a Python 2.7 script that converts TSV
   force-plate exports into the OpenSim .mot text format.

   Modelling conventions of the shallow embedding:
   * Python strings are `List Char` (abbreviated `Str`); input lines are taken
     without their trailing newline (the script only prefix-tests lines and
     re-tokenises them with `str.split()`, so the newline never matters).
   * Python floats are idealised as exact rationals: `float(s)` becomes
     `parseF : Str → Option ℚ`, modelling the plain sign/digits/dot decimal
     literals that occur in this data format (no exponents, inf/nan or
     underscores); `"%.8f" % x` becomes `fmt8 : ℚ → Str`, which rounds the
     exact value to 8 decimal places; `str(<float>)` is value-preserving and
     its output is always re-parsed by `float` before use, so only its value
     is modelled; IEEE rounding noise below the 8th decimal and the sign of
     floating-point zero are identified away.
   * Python runtime exceptions that the script can raise (IndexError on a
     missing list index, ValueError from float()/int(), ZeroDivisionError
     from 1.0/frequency) are modelled by `PyErr` in an `Except` monad.
   * `n_rows / 2` is Python 2 integer division on ints, i.e. `Nat.div`.
-/

/- Batteries marks the arithmetic operations of `Rat` `@[irreducible]`.  The
   concrete evaluations below (`decide` on closed goals) need the elaborator
   to unfold them; the kernel re-checks every such proof by full reduction, so
   this only restores the visibility the kernel has anyway. -/
attribute [local semireducible] Rat.add Rat.mul Rat.inv Rat.sub

abbrev Str := List Char

inductive PyErr where
  | indexError : PyErr
  | valueError : PyErr
  | zeroDivisionError : PyErr
deriving DecidableEq, Repr

deriving instance DecidableEq for Except

def isErr {α : Type} : Except PyErr α → Bool
  | Except.error _ => true
  | Except.ok _ => false

/-- Decimal digit character for a digit value (used least-significant first by
the decimal printer; values `≥ 9` only ever receive `n % 10` arguments). -/
def digitChar : ℕ → Char
  | 0 => '0'
  | 1 => '1'
  | 2 => '2'
  | 3 => '3'
  | 4 => '4'
  | 5 => '5'
  | 6 => '6'
  | 7 => '7'
  | 8 => '8'
  | _ => '9'

/-- Decimal printer for naturals, accumulator style: models Python `str(n)`
for a non-negative int.  The first argument is fuel, making the recursion
structural (hence kernel-reducible); `natToChars` passes `n` itself as fuel,
which always suffices because `n / 10 < n` whenever `n ≥ 10`. -/
def natToCharsAux : ℕ → ℕ → Str → Str
  | 0, n, acc => digitChar n :: acc
  | fuel + 1, n, acc =>
    if n < 10 then digitChar n :: acc
    else natToCharsAux fuel (n / 10) (digitChar (n % 10) :: acc)

def natToChars (n : ℕ) : Str := natToCharsAux n n []

/-- Value of a digit string, most significant digit first. -/
def natVal (s : Str) : ℕ := s.foldl (fun a c => 10 * a + (c.toNat - 48)) 0

/-- Rounding of an exact rational to 8 decimal places: the value that
`"%.8f" % x` prints (ties idealised to round-half-up). -/
def round8 (q : ℚ) : ℚ := ((round (q * 100000000) : ℤ) : ℚ) / 100000000

/-- Left-pad a digit string with zeros to width `w` (no truncation). -/
def zeroPad (w : ℕ) (s : Str) : Str := List.replicate (w - s.length) '0' ++ s

/-- Model of `pad` (tsvF2mot.py line 175): `"%.8f" % float(value)` — fixed
point, exactly 8 fractional digits, leading `-` for negative values. -/
def fmt8 (q : ℚ) : Str :=
  let n : ℤ := round (q * 100000000)
  (if n < 0 then ['-'] else []) ++
    natToChars (n.natAbs / 100000000) ++ '.' :: zeroPad 8 (natToChars (n.natAbs % 100000000))

/-- The literal `'0.00000000'` used by `zero_tuple` (line 239). -/
def zeroStr : Str := "0.00000000".toList

/-- `zero_tuple` (line 239): zero values for the flying leg. -/
def zeroTuple : List Str := [zeroStr, zeroStr, zeroStr]

/-- An exact rational is `8-decimal exact` when rounding to 8 decimals leaves
it unchanged; all of the script's calibration constants and the sample data
of the specification are such values. -/
def IsExact8 (q : ℚ) : Prop := round8 q = q

instance (q : ℚ) : Decidable (IsExact8 q) :=
  inferInstanceAs (Decidable (round8 q = q))

/-- Python `s.split(sep)` for a one-character separator `sep` (empty pieces
kept, as in Python). -/
def splitOnChar (sep : Char) : Str → List Str
  | [] => [[]]
  | c :: rest =>
    if c = sep then [] :: splitOnChar sep rest
    else
      match splitOnChar sep rest with
      | [] => [[c]]
      | h :: t => (c :: h) :: t

/-- Whitespace characters recognised by Python `str.split()`. -/
def isWsChar (c : Char) : Bool :=
  c = ' ' || c = '\t' || c = '\n' || c = '\r' || c = '\x0b' || c = '\x0c'

def splitWsAux : Str → Str → List Str
  | [], acc => if acc.isEmpty then [] else [acc.reverse]
  | c :: rest, acc =>
    if isWsChar c then
      if acc.isEmpty then splitWsAux rest [] else acc.reverse :: splitWsAux rest []
    else splitWsAux rest (c :: acc)

/-- Python `str.split()` with no argument: split on whitespace runs,
dropping empty tokens. -/
def splitWs (s : Str) : List Str := splitWsAux s []

/-- Python `s.split(', ')` for the two-character separator used on the
column-name literal (line 270). -/
def splitCommaSpace : Str → List Str
  | [] => [[]]
  | ',' :: ' ' :: rest => [] :: splitCommaSpace rest
  | c :: rest =>
    match splitCommaSpace rest with
    | [] => [[c]]
    | h :: t => (c :: h) :: t

/-- Model of `reverse_axis` (lines 181-190): string-level sign flip — strip a
leading `'-'` if present, otherwise prepend one. -/
def reverseStr (s : Str) : Str :=
  if s.head? = some '-' then s.tail else '-' :: s

/-- Python `s.rjust(w)`: right-justify with spaces to minimum width `w`. -/
def rjust (w : ℕ) (s : Str) : Str := List.replicate (w - s.length) ' ' ++ s

/-- Python `s.rstrip('\t')`: drop all trailing tab characters. -/
def rstripTab (s : Str) : Str := (s.reverse.dropWhile (fun c => c = '\t')).reverse

/-- Model of Python `float(s)` on an unsigned literal: digits with at most one
decimal point, at least one digit overall. -/
def parseUnsigned (s : Str) : Option ℚ :=
  match splitOnChar '.' s with
  | [a] =>
    if (!a.isEmpty) && a.all Char.isDigit then some (natVal a : ℚ) else none
  | [a, b] =>
    if (!a.isEmpty || !b.isEmpty) && a.all Char.isDigit && b.all Char.isDigit then
      some ((natVal a : ℚ) + (natVal b : ℚ) / 10 ^ b.length)
    else none
  | _ => none

/-- Model of Python `float(s)`: optional single leading sign, then an
unsigned decimal literal. -/
def parseF (s : Str) : Option ℚ :=
  if s.head? = some '-' then (parseUnsigned s.tail).map (fun q => -q)
  else if s.head? = some '+' then parseUnsigned s.tail
  else parseUnsigned s

/-- Model of Python `int(s)`: optional sign, then digits only. -/
def parseIntTok (s : Str) : Option ℤ :=
  if s.head? = some '-' then
    (if (!s.tail.isEmpty) && s.tail.all Char.isDigit then some (-(natVal s.tail : ℤ)) else none)
  else if s.head? = some '+' then
    (if (!s.tail.isEmpty) && s.tail.all Char.isDigit then some (natVal s.tail : ℤ) else none)
  else
    (if (!s.isEmpty) && s.all Char.isDigit then some (natVal s : ℤ) else none)

/-- `float(s)` as an effectful operation: `ValueError` on failure. -/
def parseFE (s : Str) : Except PyErr ℚ :=
  match parseF s with
  | some v => Except.ok v
  | none => Except.error PyErr.valueError

/-- Python list read `d[i]`: `IndexError` when the index is out of range. -/
def getTok : List Str → ℕ → Except PyErr Str
  | [], _ => Except.error PyErr.indexError
  | s :: _, 0 => Except.ok s
  | _ :: d, n + 1 => getTok d n

/-- Python list write `d[i] = s`: `IndexError` when out of range. -/
def setTok : List Str → ℕ → Str → Except PyErr (List Str)
  | [], _, _ => Except.error PyErr.indexError
  | _ :: d, 0, s => Except.ok (s :: d)
  | c :: d, n + 1, s => (setTok d n s).map (fun d2 => c :: d2)

/-- The per-row transformation of tsvF2mot.py lines 289-326, applied to the
`str.split()` tokens of one data line: padding, the COP unit scale by 0.001,
the Y/Z swaps, the slot-3/5 and slot-6/8 swaps of lines 305-306, the
`reverse_axis` calls, and the `shift_axis` calls with offsets -0.5 and +0.25.
Reads, computations and writes are sequenced exactly as Python evaluates the
corresponding statements. -/
def transformTokens (d0 : List Str) : Except PyErr (List Str) := do
  -- line 293: data_string_split[0] = pad(data_string_split[0])
  let s0 ← getTok d0 0
  let v0 ← parseFE s0
  let d ← setTok d0 0 (fmt8 v0)
  -- line 294: pad of slot 3
  let s3 ← getTok d 3
  let v3 ← parseFE s3
  let d ← setTok d 3 (fmt8 v3)
  -- line 295: pad(scale_axis(slot 6, 0.001))
  let s6 ← getTok d 6
  let v6 ← parseFE s6
  let d ← setTok d 6 (fmt8 (v6 / 1000))
  -- line 299: slots 1,2 = pad(slot 2), pad(slot 1)
  let s2 ← getTok d 2
  let v2 ← parseFE s2
  let s1 ← getTok d 1
  let v1 ← parseFE s1
  let d ← setTok d 1 (fmt8 v2)
  let d ← setTok d 2 (fmt8 v1)
  -- line 300: slots 4,5 = pad(slot 5), pad(slot 4)
  let s5 ← getTok d 5
  let v5 ← parseFE s5
  let s4 ← getTok d 4
  let v4 ← parseFE s4
  let d ← setTok d 4 (fmt8 v5)
  let d ← setTok d 5 (fmt8 v4)
  -- line 301: slots 7,8 = '0.00000000', pad(scale_axis(reverse_axis(slot 7), 0.001))
  let s7 ← getTok d 7
  let v7r ← parseFE (reverseStr s7)
  let d ← setTok d 7 zeroStr
  let d ← setTok d 8 (fmt8 (v7r / 1000))
  -- line 304 is a self-assignment (no-op); line 305 swaps slots 3 and 5
  let a3 ← getTok d 3
  let a5 ← getTok d 5
  let d ← setTok d 5 a3
  let d ← setTok d 3 a5
  -- line 306 swaps slots 6 and 8
  let a6 ← getTok d 6
  let a8 ← getTok d 8
  let d ← setTok d 8 a6
  let d ← setTok d 6 a8
  -- lines 311-316: reverse_axis on slots 3, 6, 2, 5, 8
  let r3 ← getTok d 3
  let d ← setTok d 3 (reverseStr r3)
  let r6 ← getTok d 6
  let d ← setTok d 6 (reverseStr r6)
  let r2 ← getTok d 2
  let d ← setTok d 2 (reverseStr r2)
  let r5 ← getTok d 5
  let d ← setTok d 5 (reverseStr r5)
  let r8 ← getTok d 8
  let d ← setTok d 8 (reverseStr r8)
  -- lines 320-326: shift_axis with -0.5 on slots 0, 3, 6 and +0.25 on slots 2, 5, 8
  let w0 ← getTok d 0
  let u0 ← parseFE w0
  let d ← setTok d 0 (fmt8 (u0 + (-(1 / 2) : ℚ)))
  let w3 ← getTok d 3
  let u3 ← parseFE w3
  let d ← setTok d 3 (fmt8 (u3 + (-(1 / 2) : ℚ)))
  let w6 ← getTok d 6
  let u6 ← parseFE w6
  let d ← setTok d 6 (fmt8 (u6 + (-(1 / 2) : ℚ)))
  let w2 ← getTok d 2
  let u2 ← parseFE w2
  let d ← setTok d 2 (fmt8 (u2 + (1 / 4 : ℚ)))
  let w5 ← getTok d 5
  let u5 ← parseFE w5
  let d ← setTok d 5 (fmt8 (u5 + (1 / 4 : ℚ)))
  let w8 ← getTok d 8
  let u8 ← parseFE w8
  let d ← setTok d 8 (fmt8 (u8 + (1 / 4 : ℚ)))
  return d

/-- Leg segmentation (lines 354-403): for `frame_number < dataset_half` the
right-leg block keeps this frame's force and COP and the left leg is zeroed,
otherwise the left-leg block is populated; both torque triples are always
appended as zeros.  In the script this code runs only after the per-row
transformation has succeeded, which guarantees at least 9 slots, so the list
reads cannot fail; `getD` encodes that in-range access. -/
def legSplit (frame half : ℕ) (d : List Str) : List Str :=
  if frame < half then
    -- RIGHT LEG DATA branch
    let p6 := d.getD 6 []
    let p7 := d.getD 7 []
    let p8 := d.getD 8 []
    let d1 := ((d.set 3 p6).set 4 p7).set 5 p8
    let d2 := ((d1.set 6 zeroStr).set 7 zeroStr).set 8 zeroStr
    d2 ++ zeroTuple ++ zeroTuple ++ zeroTuple
  else
    -- LEFT LEG DATA branch
    let f0 := d.getD 0 []
    let f1 := d.getD 1 []
    let f2 := d.getD 2 []
    let p6 := d.getD 6 []
    let p7 := d.getD 7 []
    let p8 := d.getD 8 []
    let d1 := ((d.set 0 zeroStr).set 1 zeroStr).set 2 zeroStr
    let d2 := ((d1.set 3 zeroStr).set 4 zeroStr).set 5 zeroStr
    let d3 := ((d2.set 6 f0).set 7 f1).set 8 f2
    d3 ++ [p6, p7, p8] ++ zeroTuple ++ zeroTuple

/-- One step of the ad hoc padding loop of lines 409-426: `result` is the
accumulator, `x` one piece of the current field split on `'.'`. -/
def padStep (result x : Str) : Str :=
  if x.head? = some '-' then
    if result.length < 1 then result ++ rjust 11 x
    else '-' :: (result ++ '.' :: x)
  else if result.length < 1 then result ++ rjust 11 x
  else result ++ '.' :: x

/-- The padding applied to one output field: split on `'.'` and refold with
`padStep` (lines 409-426). -/
def padField (s : Str) : Str := (splitOnChar '.' s).foldl padStep []

/-- One complete output data line (lines 405-433): every field padded, joined
with tabs, the trailing tab stripped, and `pad(str(time)).rjust(20)` plus a
tab prepended. -/
def formatDataRow (time : ℚ) (fields : List Str) : Str :=
  let joined := fields.foldl (fun acc f => acc ++ padField f ++ ['\t']) []
  rjust 20 (fmt8 time) ++ '\t' :: rstripTab joined

/-- The column-name literal of line 270, exactly as in the source. -/
def motNamesLit : Str :=
  ("   R_ground_force_vx,    R_ground_force_vy,    R_ground_force_vz,    R_ground_force_px,    R_ground_force_py,    R_ground_force_pz,    L_ground_force_vx,    L_ground_force_vy,    L_ground_force_vz,    L_ground_force_px,    L_ground_force_py,    L_ground_force_pz,    R_ground_torque_x,    R_ground_torque_y,    R_ground_torque_z,    L_ground_torque_x,    L_ground_torque_y,    L_ground_torque_z").toList

/-- The column-header line (lines 270-272): `'time\t'.rjust(21)` followed by
the tab-join of the names obtained by splitting the literal on `', '`. -/
def colHeaderLine : Str :=
  rjust 21 ("time\t".toList) ++ List.intercalate ['\t'] (splitCommaSpace motNamesLit)

/-- Prefix tested by `i[:9] == 'FREQUENCY'` (line 246). -/
def freqPat : Str := "FREQUENCY".toList

/-- Prefix tested by `i[:7] == 'Force_X'` (line 252). -/
def markerPat : Str := "Force_X".toList

/-- The loop-carried state of `convert` (lines 233-239): header line counter,
running time, time increment `quant`, the header-end flag, the frame counter,
`dataset_half`, and the lines written to the output file so far. -/
structure ConvState where
  headerRows : ℕ
  time : ℚ
  quant : ℚ
  dataFlag : Bool
  frameNumber : ℕ
  half : ℕ
  out : List Str
deriving DecidableEq, Repr

/-- The data-row branch of the loop (lines 286-438): tokenize, transform,
segment by leg, format, append the line, bump the frame counter and the
running time. -/
def processDataRow (st : ConvState) (line : Str) : Except PyErr ConvState := do
  let d ← transformTokens (splitWs line)
  let fields := legSplit st.frameNumber st.half d
  let row := formatDataRow st.time fields
  Except.ok { st with
    out := st.out ++ [row],
    frameNumber := st.frameNumber + 1,
    time := st.time + st.quant }

/-- The FREQUENCY branch of the loop (lines 246-249): parse the second token
as an int and set `quant = 1.0 / frequency`. -/
def freqStep (st : ConvState) (line : Str) : Except PyErr ConvState :=
  match splitWs line with
  | _ :: t1 :: _ =>
    match parseIntTok t1 with
    | some f =>
      if f = 0 then Except.error PyErr.zeroDivisionError
      else Except.ok { st with quant := 1 / (f : ℚ) }
    | none => Except.error PyErr.valueError
  | _ => Except.error PyErr.indexError

/-- One iteration of the main loop of `convert` (lines 243-438) on one input
line, given the file's total line count (`total_rows`, line 257). -/
def stepLine (totalRows : ℕ) (st : ConvState) (line : Str) : Except PyErr ConvState := do
  let st := { st with headerRows := st.headerRows + 1 }
  let st ←
    if line.take 9 = freqPat then freqStep st line
    else Except.ok st
  if line.take 7 = markerPat then
    let nColumns := (splitWs line).length + 1 + 9
    let nRows := totalRows - st.headerRows
    Except.ok { st with
      dataFlag := true,
      half := nRows / 2,
      out := st.out ++
        ["nRows=".toList ++ natToChars nRows,
         "nColumns=".toList ++ natToChars nColumns,
         "inDegrees=yes".toList,
         "endheader".toList,
         colHeaderLine] }
  else if st.dataFlag = false then
    Except.ok st
  else processDataRow st line

/-- Folding the main loop over the remaining input lines. -/
def runLines (totalRows : ℕ) (lines : List Str) (st : ConvState) : Except PyErr ConvState :=
  match lines with
  | [] => Except.ok st
  | l :: rest => do runLines totalRows rest (← stepLine totalRows st l)

/-- Python `filename.replace('.tsv', '.mot')`: replace every (left-to-right,
non-overlapping) occurrence. -/
def replaceTsvMot : Str → Str
  | '.' :: 't' :: 's' :: 'v' :: rest => '.' :: 'm' :: 'o' :: 't' :: replaceTsvMot rest
  | c :: rest => c :: replaceTsvMot rest
  | [] => []

/-- The state of `convert` just after writing the name and `version=1` lines
(lines 227-239). -/
def initState (outName : Str) : ConvState :=
  { headerRows := 0, time := 0, quant := 0, dataFlag := false, frameNumber := 0,
    half := 0, out := [outName, "version=1".toList] }

/-- The whole `convert` function (lines 215-449) on the list of input lines:
the lines written to the output `.mot` file, or the Python exception that
aborts the conversion. -/
def convert (filename : String) (lines : List Str) : Except PyErr (List Str) :=
  let outName := replaceTsvMot filename.toList
  (runLines lines.length lines (initState outName)).map ConvState.out

/-- The invariant asserted by the specification for one output frame of 18
fields: exactly one of the two leg force+COP blocks (fields 0-5 for the right
leg, 6-11 for the left leg) contains a non-zero field, and all six torque
fields (12-17) are exactly the 8-decimal zero string. -/
def specFrameInvariant (out : List Str) : Prop :=
  ((((out.take 6).any (fun s => s ≠ zeroStr)) = true) ↔
      ¬ ((((out.drop 6).take 6).any (fun s => s ≠ zeroStr)) = true)) ∧
    (∀ s ∈ out.drop 12, s = zeroStr)

theorem exbind_ok {α β : Type} (a : α) (f : α → Except PyErr β) :
    (Except.ok a >>= f) = f a := rfl

theorem exbind_err {α β : Type} (e : PyErr) (f : α → Except PyErr β) :
    ((Except.error e : Except PyErr α) >>= f) = Except.error e := rfl

theorem digitChar_isDigit {d : ℕ} (h : d < 10) : (digitChar d).isDigit = true := by
  interval_cases d <;> decide

theorem digitChar_toNat {d : ℕ} (h : d < 10) : (digitChar d).toNat - 48 = d := by
  interval_cases d <;> decide

theorem isDigit_ne_dot {c : Char} (h : c.isDigit = true) : c ≠ '.' := by
  intro hc; subst hc; exact absurd h (by decide)

theorem isDigit_ne_minus {c : Char} (h : c.isDigit = true) : c ≠ '-' := by
  intro hc; subst hc; exact absurd h (by decide)

theorem isDigit_ne_plus {c : Char} (h : c.isDigit = true) : c ≠ '+' := by
  intro hc; subst hc; exact absurd h (by decide)

theorem isDigit_ne_tab {c : Char} (h : c.isDigit = true) : c ≠ '\t' := by
  intro hc; subst hc; exact absurd h (by decide)

theorem natToCharsAux_fuel (n : ℕ) : ∀ f1 f2 : ℕ, ∀ acc : Str, n ≤ f1 → n ≤ f2 →
    natToCharsAux f1 n acc = natToCharsAux f2 n acc := by
  induction n using Nat.strong_induction_on with
  | _ n ih =>
    intro f1 f2 acc h1 h2
    rcases f1 with _ | f1 <;> rcases f2 with _ | f2
    · rfl
    · have hn : n = 0 := by omega
      subst hn
      simp [natToCharsAux]
    · have hn : n = 0 := by omega
      subst hn
      simp [natToCharsAux]
    · by_cases h : n < 10
      · simp [natToCharsAux, h]
      · have hlt : n / 10 < n := Nat.div_lt_self (by omega) (by omega)
        simp only [natToCharsAux, if_neg h]
        exact ih (n / 10) hlt f1 f2 _ (by omega) (by omega)

theorem natToCharsAux_unfold (n fuel : ℕ) (acc : Str) (hf : n ≤ fuel) :
    natToCharsAux fuel n acc =
      if n < 10 then digitChar n :: acc
      else natToCharsAux (n / 10) (n / 10) (digitChar (n % 10) :: acc) := by
  rcases fuel with _ | fuel
  · have hn : n = 0 := by omega
    subst hn
    simp [natToCharsAux]
  · by_cases h : n < 10
    · simp [natToCharsAux, h]
    · have hlt : n / 10 < n := Nat.div_lt_self (by omega) (by omega)
      simp only [natToCharsAux, if_neg h]
      exact natToCharsAux_fuel (n / 10) fuel (n / 10) _ (by omega) le_rfl

theorem natToCharsAux_append (n : ℕ) : ∀ acc : Str,
    natToCharsAux n n acc = natToCharsAux n n [] ++ acc := by
  induction n using Nat.strong_induction_on with
  | _ n ih =>
    intro acc
    by_cases h : n < 10
    · rw [natToCharsAux_unfold n n acc le_rfl, natToCharsAux_unfold n n [] le_rfl,
        if_pos h, if_pos h]
      rfl
    · have hlt : n / 10 < n := Nat.div_lt_self (by omega) (by omega)
      rw [natToCharsAux_unfold n n acc le_rfl, natToCharsAux_unfold n n [] le_rfl,
        if_neg h, if_neg h,
        ih (n / 10) hlt (digitChar (n % 10) :: acc),
        ih (n / 10) hlt [digitChar (n % 10)]]
      simp

theorem natToCharsAux_ne_nil (n : ℕ) : ∀ acc : Str, natToCharsAux n n acc ≠ [] := by
  induction n using Nat.strong_induction_on with
  | _ n ih =>
    intro acc
    by_cases h : n < 10
    · rw [natToCharsAux_unfold n n acc le_rfl, if_pos h]
      exact List.cons_ne_nil _ _
    · rw [natToCharsAux_unfold n n acc le_rfl, if_neg h]
      exact ih (n / 10) (Nat.div_lt_self (by omega) (by omega)) _

theorem natToChars_ne_nil (n : ℕ) : natToChars n ≠ [] := natToCharsAux_ne_nil n []

theorem natToCharsAux_digits (n : ℕ) : ∀ acc : Str, (∀ c ∈ acc, c.isDigit = true) →
    ∀ c ∈ natToCharsAux n n acc, c.isDigit = true := by
  induction n using Nat.strong_induction_on with
  | _ n ih =>
    intro acc hacc c hc
    by_cases h : n < 10
    · rw [natToCharsAux_unfold n n acc le_rfl, if_pos h] at hc
      rcases List.mem_cons.mp hc with h1 | h1
      · subst h1; exact digitChar_isDigit h
      · exact hacc c h1
    · rw [natToCharsAux_unfold n n acc le_rfl, if_neg h] at hc
      refine ih (n / 10) (Nat.div_lt_self (by omega) (by omega)) _ ?_ c hc
      intro c2 hc2
      rcases List.mem_cons.mp hc2 with h2 | h2
      · subst h2; exact digitChar_isDigit (Nat.mod_lt n (by omega))
      · exact hacc c2 h2

theorem natToChars_digits (n : ℕ) : ∀ c ∈ natToChars n, c.isDigit = true :=
  natToCharsAux_digits n [] (by intro c hc; cases hc)

theorem natVal_aux (s : Str) : ∀ i : ℕ,
    s.foldl (fun a c => 10 * a + (c.toNat - 48)) i = i * 10 ^ s.length + natVal s := by
  induction s with
  | nil => intro i; simp [natVal]
  | cons c s ih =>
    intro i
    simp only [List.foldl_cons, List.length_cons, natVal]
    rw [ih, ih]
    ring

theorem natVal_append (a b : Str) :
    natVal (a ++ b) = natVal a * 10 ^ b.length + natVal b := by
  rw [natVal, List.foldl_append, natVal_aux]
  rfl

theorem natVal_natToChars (n : ℕ) : natVal (natToChars n) = n := by
  induction n using Nat.strong_induction_on with
  | _ n ih =>
    by_cases h : n < 10
    · rw [natToChars, natToCharsAux_unfold n n [] le_rfl, if_pos h]
      show natVal [digitChar n] = n
      simp [natVal, digitChar_toNat h]
    · rw [natToChars, natToCharsAux_unfold n n [] le_rfl, if_neg h, natToCharsAux_append,
        natVal_append]
      have h1 : natVal (natToCharsAux (n / 10) (n / 10) []) = n / 10 :=
        ih (n / 10) (Nat.div_lt_self (by omega) (by omega))
      have h2 : natVal [digitChar (n % 10)] = n % 10 := by
        simp [natVal, digitChar_toNat (Nat.mod_lt n (by omega) : n % 10 < 10)]
      rw [h1, h2]
      simp only [List.length_cons, List.length_nil, pow_one]
      omega

theorem natToChars_length_le : ∀ (k n : ℕ), n < 10 ^ (k + 1) → (natToChars n).length ≤ k + 1 := by
  intro k
  induction k with
  | zero =>
    intro n h
    rw [natToChars, natToCharsAux_unfold n n [] le_rfl, if_pos (by omega : n < 10)]
    simp
  | succ k ih =>
    intro n h
    by_cases h10 : n < 10
    · rw [natToChars, natToCharsAux_unfold n n [] le_rfl, if_pos h10]
      simp
    · rw [natToChars, natToCharsAux_unfold n n [] le_rfl, if_neg h10, natToCharsAux_append,
        List.length_append]
      have hdiv : n / 10 < 10 ^ (k + 1) := by
        rw [Nat.div_lt_iff_lt_mul (by omega : 0 < 10)]
        calc n < 10 ^ (k + 1 + 1) := h
          _ = 10 ^ (k + 1) * 10 := by ring
      have hl : (natToCharsAux (n / 10) (n / 10) []).length ≤ k + 1 := ih (n / 10) hdiv
      simp only [List.length_cons, List.length_nil]
      omega
theorem natVal_replicate_zero_aux : ∀ j : ℕ,
    (List.replicate j '0').foldl (fun a c => 10 * a + (c.toNat - 48)) 0 = 0 := by
  intro j
  induction j with
  | zero => rfl
  | succ j ih => simpa [List.replicate_succ] using ih

theorem natVal_zeroPad (w : ℕ) (s : Str) : natVal (zeroPad w s) = natVal s := by
  rw [zeroPad, natVal_append]
  have : natVal (List.replicate (w - s.length) '0') = 0 := natVal_replicate_zero_aux _
  rw [this]
  ring

theorem zeroPad_length (w : ℕ) (s : Str) (h : s.length ≤ w) : (zeroPad w s).length = w := by
  simp [zeroPad]
  omega

theorem zeroPad_digits (w : ℕ) (s : Str) (hs : ∀ c ∈ s, c.isDigit = true) :
    ∀ c ∈ zeroPad w s, c.isDigit = true := by
  intro c hc
  rcases List.mem_append.mp hc with h | h
  · rw [List.eq_of_mem_replicate h]; decide
  · exact hs c h

theorem splitOnChar_ne_nil (sep : Char) (s : Str) : splitOnChar sep s ≠ [] := by
  induction s with
  | nil => simp [splitOnChar]
  | cons c rest ih =>
    by_cases h : c = sep
    · simp [splitOnChar, h]
    · rcases hsp : splitOnChar sep rest with _ | ⟨hh, tt⟩
      · exact absurd hsp ih
      · simp [splitOnChar, h, hsp]

theorem splitOnChar_of_not_mem (sep : Char) (s : Str) (h : ∀ c ∈ s, c ≠ sep) :
    splitOnChar sep s = [s] := by
  induction s with
  | nil => rfl
  | cons c rest ih =>
    have hc : c ≠ sep := h c (List.mem_cons_self _ _)
    have hr := ih (fun c2 hc2 => h c2 (List.mem_cons_of_mem _ hc2))
    simp [splitOnChar, hc, hr]

theorem splitOnChar_append_sep (sep : Char) (a b : Str) (h : ∀ c ∈ a, c ≠ sep) :
    splitOnChar sep (a ++ sep :: b) = a :: splitOnChar sep b := by
  induction a with
  | nil => simp [splitOnChar]
  | cons c a ih =>
    have hc : c ≠ sep := h c (List.mem_cons_self _ _)
    have hr := ih (fun c2 hc2 => h c2 (List.mem_cons_of_mem _ hc2))
    simp [splitOnChar, hc, hr]

theorem splitOnChar_mem_subset (sep : Char) (s : Str) :
    ∀ p ∈ splitOnChar sep s, ∀ c ∈ p, c ∈ s := by
  induction s with
  | nil =>
    intro p hp c hc
    simp [splitOnChar] at hp
    subst hp
    cases hc
  | cons ch rest ih =>
    intro p hp c hc
    by_cases h : ch = sep
    · rw [splitOnChar, if_pos h] at hp
      rcases List.mem_cons.mp hp with h1 | h1
      · subst h1; cases hc
      · exact List.mem_cons_of_mem _ (ih p h1 c hc)
    · rw [splitOnChar, if_neg h] at hp
      rcases hsp : splitOnChar sep rest with _ | ⟨hh, tt⟩
      · exact absurd hsp (splitOnChar_ne_nil sep rest)
      · rw [hsp] at hp
        rcases List.mem_cons.mp hp with h1 | h1
        · subst h1
          rcases List.mem_cons.mp hc with h2 | h2
          · subst h2; exact List.mem_cons_self _ _
          · exact List.mem_cons_of_mem _ (ih hh (by rw [hsp]; exact List.mem_cons_self _ _) c h2)
        · exact List.mem_cons_of_mem _ (ih p (by rw [hsp]; exact List.mem_cons_of_mem _ h1) c hc)


theorem parseF_minus_cons (s : Str) :
    parseF ('-' :: s) = (parseUnsigned s).map (fun q => -q) := by
  have h : (('-' :: s : Str)).head? = some '-' := rfl
  rw [parseF, if_pos h]
  rfl

theorem parseF_not_sign (s : Str) (hm : s.head? ≠ some '-') (hp : s.head? ≠ some '+') :
    parseF s = parseUnsigned s := by
  rw [parseF, if_neg hm, if_neg hp]

theorem reverseStr_minus_cons (s : Str) : reverseStr ('-' :: s) = s := by
  have h : (('-' :: s : Str)).head? = some '-' := rfl
  rw [reverseStr, if_pos h]
  rfl

theorem reverseStr_not_minus (s : Str) (hm : s.head? ≠ some '-') :
    reverseStr s = '-' :: s := by
  rw [reverseStr, if_neg hm]

theorem parseUnsigned_core (m : ℕ) :
    parseUnsigned (natToChars (m / 100000000) ++ '.' :: zeroPad 8 (natToChars (m % 100000000)))
      = some ((m : ℚ) / 100000000) := by
  have hAdig : ∀ c ∈ natToChars (m / 100000000), c.isDigit = true := natToChars_digits _
  have hBdig : ∀ c ∈ zeroPad 8 (natToChars (m % 100000000)), c.isDigit = true :=
    zeroPad_digits _ _ (natToChars_digits _)
  have hsplit : splitOnChar '.'
      (natToChars (m / 100000000) ++ '.' :: zeroPad 8 (natToChars (m % 100000000)))
      = [natToChars (m / 100000000), zeroPad 8 (natToChars (m % 100000000))] := by
    rw [splitOnChar_append_sep _ _ _ (fun c hc => isDigit_ne_dot (hAdig c hc)),
      splitOnChar_of_not_mem _ _ (fun c hc => isDigit_ne_dot (hBdig c hc))]
  have hAne : (natToChars (m / 100000000)).isEmpty = false := by
    rcases h : natToChars (m / 100000000) with _ | ⟨c, s⟩
    · exact absurd h (natToChars_ne_nil _)
    · rfl
  have hAall : (natToChars (m / 100000000)).all Char.isDigit = true :=
    List.all_eq_true.mpr hAdig
  have hBall : (zeroPad 8 (natToChars (m % 100000000))).all Char.isDigit = true :=
    List.all_eq_true.mpr hBdig
  have hBlen : (zeroPad 8 (natToChars (m % 100000000))).length = 8 :=
    zeroPad_length _ _ (by
      have := natToChars_length_le 7 (m % 100000000) (by omega)
      simpa using this)
  simp only [parseUnsigned, hsplit, hAne, hAall, hBall, Bool.not_false, Bool.true_and,
    Bool.and_self, Bool.true_or, Bool.or_self, if_true, ite_true, Bool.and_true]
  refine congrArg some ?_
  rw [natVal_natToChars, natVal_zeroPad, natVal_natToChars, hBlen]
  have hm := Nat.div_add_mod m 100000000
  have hcast : (m : ℚ) = 100000000 * ((m / 100000000 : ℕ) : ℚ) + ((m % 100000000 : ℕ) : ℚ) := by
    exact_mod_cast hm.symm
  rw [hcast]
  norm_num
  ring

theorem head_isDigit_of_digits {s : Str} (hne : s ≠ []) (hd : ∀ c ∈ s, c.isDigit = true) :
    ∃ c, s.head? = some c ∧ c.isDigit = true := by
  rcases s with _ | ⟨c, s⟩
  · exact absurd rfl hne
  · exact ⟨c, rfl, hd c (List.mem_cons_self _ _)⟩

theorem core_head_not_sign (m : ℕ) :
    (natToChars (m / 100000000) ++ '.' :: zeroPad 8 (natToChars (m % 100000000))).head? ≠ some '-'
    ∧ (natToChars (m / 100000000) ++ '.' :: zeroPad 8 (natToChars (m % 100000000))).head? ≠ some '+' := by
  rcases h : natToChars (m / 100000000) with _ | ⟨c0, s0⟩
  · exact absurd h (natToChars_ne_nil _)
  · have hc0 : c0.isDigit = true := by
      refine natToChars_digits (m / 100000000) c0 ?_
      rw [h]
      exact List.mem_cons_self _ _
    constructor
    · intro hcontra
      simp only [List.cons_append, List.head?_cons, Option.some.injEq] at hcontra
      exact isDigit_ne_minus hc0 hcontra
    · intro hcontra
      simp only [List.cons_append, List.head?_cons, Option.some.injEq] at hcontra
      exact isDigit_ne_plus hc0 hcontra

theorem parseF_core (m : ℕ) :
    parseF (natToChars (m / 100000000) ++ '.' :: zeroPad 8 (natToChars (m % 100000000)))
      = some ((m : ℚ) / 100000000) := by
  obtain ⟨hm, hp⟩ := core_head_not_sign m
  rw [parseF_not_sign _ hm hp, parseUnsigned_core]

theorem natAbs_cast_of_nonneg {n : ℤ} (h : 0 ≤ n) : ((n.natAbs : ℕ) : ℚ) = (n : ℚ) := by
  rw [Nat.cast_natAbs]
  exact_mod_cast abs_of_nonneg h

theorem natAbs_cast_of_neg {n : ℤ} (h : n < 0) : ((n.natAbs : ℕ) : ℚ) = -(n : ℚ) := by
  rw [Nat.cast_natAbs]
  exact_mod_cast abs_of_neg h

theorem parseF_fmt8 (q : ℚ) : parseF (fmt8 q) = some (round8 q) := by
  rw [fmt8]
  by_cases hneg : round (q * 100000000) < 0
  · rw [if_pos hneg, List.singleton_append, List.cons_append, parseF_minus_cons,
      parseUnsigned_core, Option.map_some']
    refine congrArg some ?_
    rw [round8, natAbs_cast_of_neg hneg]
    ring
  · rw [if_neg hneg, List.nil_append, parseF_core, round8,
      natAbs_cast_of_nonneg (not_lt.mp hneg)]

theorem parseF_reverseStr_fmt8 (q : ℚ) :
    parseF (reverseStr (fmt8 q)) = some (-(round8 q)) := by
  rw [fmt8]
  by_cases hneg : round (q * 100000000) < 0
  · rw [if_pos hneg, List.singleton_append, List.cons_append, reverseStr_minus_cons,
      parseF_core]
    refine congrArg some ?_
    rw [round8, natAbs_cast_of_neg hneg]
    ring
  · obtain ⟨hm, _⟩ := core_head_not_sign (round (q * 100000000)).natAbs
    rw [if_neg hneg, List.nil_append, reverseStr_not_minus _ hm, parseF_minus_cons,
      parseUnsigned_core, Option.map_some']
    refine congrArg some ?_
    rw [round8, natAbs_cast_of_nonneg (not_lt.mp hneg)]

theorem fmt8_zero : fmt8 0 = zeroStr := by decide

theorem isExact8_iff (q : ℚ) : IsExact8 q ↔ ∃ n : ℤ, q = (n : ℚ) / 100000000 := by
  constructor
  · intro h
    exact ⟨round (q * 100000000), h.symm⟩
  · rintro ⟨n, rfl⟩
    rw [IsExact8, round8]
    have h1 : (n : ℚ) / 100000000 * 100000000 = (n : ℚ) := by field_simp
    rw [h1, round_intCast]

theorem IsExact8.eq {q : ℚ} (h : IsExact8 q) : round8 q = q := h

theorem IsExact8.neg {q : ℚ} (h : IsExact8 q) : IsExact8 (-q) := by
  obtain ⟨n, rfl⟩ := (isExact8_iff q).mp h
  exact (isExact8_iff _).mpr ⟨-n, by push_cast; ring⟩

theorem IsExact8.add {p q : ℚ} (hp : IsExact8 p) (hq : IsExact8 q) : IsExact8 (p + q) := by
  obtain ⟨n, rfl⟩ := (isExact8_iff p).mp hp
  obtain ⟨m, rfl⟩ := (isExact8_iff q).mp hq
  refine (isExact8_iff _).mpr ⟨n + m, ?_⟩
  push_cast
  ring

theorem isExact8_half : IsExact8 (1 / 2 : ℚ) :=
  (isExact8_iff _).mpr ⟨50000000, by norm_num⟩

theorem isExact8_quarter : IsExact8 (1 / 4 : ℚ) :=
  (isExact8_iff _).mpr ⟨25000000, by norm_num⟩

theorem transformTokens_eval (t0 t1 t2 t3 t4 t5 t6 t7 t8 : Str) (rest : List Str)
    (v0 v1 v2 v3 v4 v5 v6 v7r : ℚ)
    (h0 : parseF t0 = some v0) (h1 : parseF t1 = some v1) (h2 : parseF t2 = some v2)
    (h3 : parseF t3 = some v3) (h4 : parseF t4 = some v4) (h5 : parseF t5 = some v5)
    (h6 : parseF t6 = some v6) (h7 : parseF (reverseStr t7) = some v7r) :
    transformTokens (t0 :: t1 :: t2 :: t3 :: t4 :: t5 :: t6 :: t7 :: t8 :: rest) =
      Except.ok
        ([fmt8 (round8 v0 + (-(1 / 2) : ℚ)),
          fmt8 v2,
          fmt8 (-(round8 v1) + (1 / 4 : ℚ)),
          fmt8 (-(round8 v4) + (-(1 / 2) : ℚ)),
          fmt8 v5,
          fmt8 (-(round8 v3) + (1 / 4 : ℚ)),
          fmt8 (-(round8 (v7r / 1000)) + (-(1 / 2) : ℚ)),
          zeroStr,
          fmt8 (-(round8 (v6 / 1000)) + (1 / 4 : ℚ))] ++ rest) := by
  simp only [transformTokens, getTok, setTok, parseFE, h0, h1, h2, h3, h4, h5, h6, h7,
    parseF_fmt8, parseF_reverseStr_fmt8, exbind_ok, Except.map, bind, Except.bind,
    pure, Except.pure, List.cons_append, List.nil_append]

theorem legSplit_eval_right (frame half : ℕ) (h : frame < half)
    (a0 a1 a2 a3 a4 a5 a6 a7 a8 : Str) (rest : List Str) :
    legSplit frame half (a0 :: a1 :: a2 :: a3 :: a4 :: a5 :: a6 :: a7 :: a8 :: rest) =
      a0 :: a1 :: a2 :: a6 :: a7 :: a8 :: zeroStr :: zeroStr :: zeroStr ::
        (rest ++ (zeroTuple ++ zeroTuple ++ zeroTuple)) := by
  simp [legSplit, h, zeroTuple, List.set, List.getD]

theorem legSplit_eval_left (frame half : ℕ) (h : ¬ frame < half)
    (a0 a1 a2 a3 a4 a5 a6 a7 a8 : Str) (rest : List Str) :
    legSplit frame half (a0 :: a1 :: a2 :: a3 :: a4 :: a5 :: a6 :: a7 :: a8 :: rest) =
      zeroStr :: zeroStr :: zeroStr :: zeroStr :: zeroStr :: zeroStr :: a0 :: a1 :: a2 ::
        (rest ++ ([a6, a7, a8] ++ zeroTuple ++ zeroTuple)) := by
  simp [legSplit, h, zeroTuple, List.set, List.getD]

theorem fmt8_ne_nil (q : ℚ) : fmt8 q ≠ [] := by
  rw [fmt8]
  intro hcontra
  rcases List.append_eq_nil.mp hcontra with ⟨h1, h2⟩
  cases h2

theorem fmt8_no_tab (q : ℚ) : ∀ c ∈ fmt8 q, c ≠ '\t' := by
  intro c hc
  rw [fmt8] at hc
  rcases List.mem_append.mp hc with h | h
  · rcases List.mem_append.mp h with hs | ha
    · by_cases hneg : round (q * 100000000) < 0
      · rw [if_pos hneg] at hs
        rw [List.mem_singleton.mp hs]
        decide
      · rw [if_neg hneg] at hs
        cases hs
    · exact isDigit_ne_tab (natToChars_digits _ c ha)
  · rcases List.mem_cons.mp h with h3 | h3
    · subst h3; decide
    · exact isDigit_ne_tab (zeroPad_digits _ _ (natToChars_digits _) c h3)

theorem zeroStr_ne_nil : zeroStr ≠ [] := by decide

theorem zeroStr_no_tab : ∀ c ∈ zeroStr, c ≠ '\t' := by decide

theorem rjust_length_ge (w : ℕ) (s : Str) : w ≤ (rjust w s).length := by
  simp [rjust]
  omega

theorem rjust_no_tab (w : ℕ) (s : Str) (hs : ∀ c ∈ s, c ≠ '\t') :
    ∀ c ∈ rjust w s, c ≠ '\t' := by
  intro c hc
  rcases List.mem_append.mp hc with h | h
  · rw [List.eq_of_mem_replicate h]
    decide
  · exact hs c h

theorem padStep_ne_nil (r x : Str) : padStep r x ≠ [] := by
  rw [padStep]
  by_cases h1 : x.head? = some '-'
  · rw [if_pos h1]
    by_cases h2 : r.length < 1
    · rw [if_pos h2]
      intro hcontra
      rcases List.append_eq_nil.mp hcontra with ⟨_, h4⟩
      have := rjust_length_ge 11 x
      rw [h4] at this
      simp at this
    · rw [if_neg h2]
      exact List.cons_ne_nil _ _
  · rw [if_neg h1]
    by_cases h2 : r.length < 1
    · rw [if_pos h2]
      intro hcontra
      rcases List.append_eq_nil.mp hcontra with ⟨_, h4⟩
      have := rjust_length_ge 11 x
      rw [h4] at this
      simp at this
    · rw [if_neg h2]
      intro hcontra
      rcases List.append_eq_nil.mp hcontra with ⟨_, h4⟩
      cases h4

theorem padStep_no_tab (r x : Str) (hr : ∀ c ∈ r, c ≠ '\t') (hx : ∀ c ∈ x, c ≠ '\t') :
    ∀ c ∈ padStep r x, c ≠ '\t' := by
  intro c hc
  rw [padStep] at hc
  by_cases h1 : x.head? = some '-'
  · rw [if_pos h1] at hc
    by_cases h2 : r.length < 1
    · rw [if_pos h2] at hc
      rcases List.mem_append.mp hc with h | h
      · exact hr c h
      · exact rjust_no_tab 11 x hx c h
    · rw [if_neg h2] at hc
      rcases List.mem_cons.mp hc with h | h
      · rw [h]; decide
      · rcases List.mem_append.mp h with h3 | h3
        · exact hr c h3
        · rcases List.mem_cons.mp h3 with h4 | h4
          · rw [h4]; decide
          · exact hx c h4
  · rw [if_neg h1] at hc
    by_cases h2 : r.length < 1
    · rw [if_pos h2] at hc
      rcases List.mem_append.mp hc with h | h
      · exact hr c h
      · exact rjust_no_tab 11 x hx c h
    · rw [if_neg h2] at hc
      rcases List.mem_append.mp hc with h | h
      · exact hr c h
      · rcases List.mem_cons.mp h with h4 | h4
        · rw [h4]; decide
        · exact hx c h4

theorem foldl_padStep_ne_nil (ps : List Str) : ∀ r : Str, r ≠ [] →
    ps.foldl padStep r ≠ [] := by
  induction ps with
  | nil => intro r hr; exact hr
  | cons p ps ih =>
    intro r hr
    rw [List.foldl_cons]
    exact ih _ (padStep_ne_nil r p)

theorem padField_ne_nil (s : Str) : padField s ≠ [] := by
  rw [padField]
  rcases hsp : splitOnChar '.' s with _ | ⟨p, ps⟩
  · exact absurd hsp (splitOnChar_ne_nil _ _)
  · rw [List.foldl_cons]
    exact foldl_padStep_ne_nil ps _ (padStep_ne_nil [] p)

theorem foldl_padStep_no_tab (ps : List Str) : ∀ r : Str, (∀ c ∈ r, c ≠ '\t') →
    (∀ p ∈ ps, ∀ c ∈ p, c ≠ '\t') → ∀ c ∈ ps.foldl padStep r, c ≠ '\t' := by
  induction ps with
  | nil => intro r hr _ c hc; exact hr c hc
  | cons p ps ih =>
    intro r hr hps c hc
    rw [List.foldl_cons] at hc
    refine ih _ (padStep_no_tab r p hr (hps p (List.mem_cons_self _ _))) ?_ c hc
    intro p2 hp2
    exact hps p2 (List.mem_cons_of_mem _ hp2)

theorem padField_no_tab (s : Str) (hs : ∀ c ∈ s, c ≠ '\t') :
    ∀ c ∈ padField s, c ≠ '\t' := by
  rw [padField]
  refine foldl_padStep_no_tab _ [] (by intro c hc; cases hc) ?_
  intro p hp c hc
  exact hs c (splitOnChar_mem_subset '.' s p hp c hc)

theorem dropWhile_ne_nil_of_exists {p : Char → Bool} {l : Str}
    (h : ∃ c ∈ l, ¬ p c = true) : l.dropWhile p ≠ [] := by
  induction l with
  | nil =>
    obtain ⟨c, hc, _⟩ := h
    cases hc
  | cons a l ih =>
    obtain ⟨c, hc, hpc⟩ := h
    rw [List.dropWhile_cons]
    by_cases ha : p a = true
    · rw [if_pos ha]
      rcases List.mem_cons.mp hc with h1 | h1
      · subst h1; exact absurd ha hpc
      · exact ih ⟨c, h1, hpc⟩
    · rw [if_neg ha]
      exact List.cons_ne_nil _ _

theorem rstripTab_append (a b : Str) (h : ∃ c ∈ b, c ≠ '\t') :
    rstripTab (a ++ b) = a ++ rstripTab b := by
  rw [rstripTab, rstripTab, List.reverse_append, List.dropWhile_append]
  have hne : (b.reverse.dropWhile fun c => c = '\t') ≠ [] := by
    refine dropWhile_ne_nil_of_exists ?_
    obtain ⟨c, hc, hcne⟩ := h
    exact ⟨c, List.mem_reverse.mpr hc, by simp [hcne]⟩
  rw [if_neg (by simpa using hne)]
  rw [List.reverse_append, List.reverse_reverse]

theorem rstripTab_tabfree (p : Str) (hp : ∀ c ∈ p, c ≠ '\t') : rstripTab p = p := by
  rw [rstripTab]
  rcases hr : p.reverse with _ | ⟨c, r⟩
  · rw [List.dropWhile_nil]
    rw [← hr, List.reverse_reverse]
  · have hc : c ∈ p := List.mem_reverse.mp (by rw [hr]; exact List.mem_cons_self _ _)
    rw [List.dropWhile_cons, if_neg (by simp [hp c hc])]
    rw [← hr, List.reverse_reverse]

theorem rstripTab_append_tab (p : Str) (hne : p ≠ []) (hp : ∀ c ∈ p, c ≠ '\t') :
    rstripTab (p ++ ['\t']) = p := by
  rw [rstripTab, List.reverse_append]
  show (List.dropWhile _ ('\t' :: p.reverse)).reverse = p
  rw [List.dropWhile_cons, if_pos (by decide)]
  have h2 : List.dropWhile (fun c => c = '\t') p.reverse = p.reverse := by
    rcases hr : p.reverse with _ | ⟨c, r⟩
    · rw [List.dropWhile_nil]
    · have hc : c ∈ p := List.mem_reverse.mp (by rw [hr]; exact List.mem_cons_self _ _)
      rw [List.dropWhile_cons, if_neg (by simp [hp c hc])]
  rw [h2, List.reverse_reverse]

theorem splitTab_join (ps : List Str) (hne : ps ≠ [])
    (hp : ∀ p ∈ ps, p ≠ [] ∧ ∀ c ∈ p, c ≠ '\t') :
    splitOnChar '\t' (rstripTab ((ps.map (fun p => p ++ ['\t'])).flatten)) = ps := by
  induction ps with
  | nil => exact absurd rfl hne
  | cons p ps ih =>
    rcases ps with _ | ⟨p2, ps2⟩
    · simp only [List.map_cons, List.map_nil, List.flatten_cons, List.flatten_nil,
        List.append_nil]
      obtain ⟨hpne, hptf⟩ := hp p (List.mem_cons_self _ _)
      rw [rstripTab_append_tab p hpne hptf]
      exact splitOnChar_of_not_mem _ _ hptf
    · simp only [List.map_cons, List.flatten_cons]
      obtain ⟨hpne, hptf⟩ := hp p (List.mem_cons_self _ _)
      obtain ⟨hp2ne, hp2tf⟩ := hp p2 (List.mem_cons_of_mem _ (List.mem_cons_self _ _))
      have hex : ∃ c ∈ (p2 ++ ['\t'] ++ ((ps2.map (fun p => p ++ ['\t'])).flatten)), c ≠ '\t' := by
        rcases hp2cases : p2 with _ | ⟨c2, r2⟩
        · exact absurd hp2cases hp2ne
        · refine ⟨c2, ?_, ?_⟩
          · refine List.mem_append.mpr (Or.inl ?_)
            refine List.mem_append.mpr (Or.inl ?_)
            exact List.mem_cons_self _ _
          · exact hp2tf c2 (by rw [hp2cases]; exact List.mem_cons_self _ _)
      rw [List.append_assoc]
      rw [rstripTab_append p (['\t'] ++ _) (by
        obtain ⟨c, hcmem, hcne⟩ := hex
        exact ⟨c, List.mem_append.mpr (Or.inr hcmem), hcne⟩)]
      rw [rstripTab_append ['\t'] _ hex]
      rw [List.singleton_append]
      rw [splitOnChar_append_sep _ _ _ hptf]
      refine congrArg (fun l => p :: l) ?_
      refine ih (List.cons_ne_nil _ _) ?_
      intro p3 hp3
      exact hp p3 (List.mem_cons_of_mem _ hp3)

theorem foldl_join (fields : List Str) : ∀ acc : Str,
    fields.foldl (fun acc f => acc ++ padField f ++ ['\t']) acc =
      acc ++ (fields.map (fun f => padField f ++ ['\t'])).flatten := by
  induction fields with
  | nil => intro acc; simp
  | cons f fields ih =>
    intro acc
    rw [List.foldl_cons, ih, List.map_cons, List.flatten_cons]
    simp [List.append_assoc]

theorem formatDataRow_split (time : ℚ) (fields : List Str) (hne : fields ≠ [])
    (hf : ∀ p ∈ fields, p ≠ [] ∧ ∀ c ∈ p, c ≠ '\t') :
    splitOnChar '\t' (formatDataRow time fields) =
      rjust 20 (fmt8 time) :: fields.map padField := by
  rw [formatDataRow]
  rw [foldl_join fields [], List.nil_append]
  rw [splitOnChar_append_sep _ _ _ (rjust_no_tab 20 _ (fmt8_no_tab time))]
  refine congrArg (fun l => rjust 20 (fmt8 time) :: l) ?_
  have hmap : (fields.map padField) ≠ [] := by
    intro hcontra
    exact hne (List.map_eq_nil_iff.mp hcontra)
  have hmapcond : ∀ p ∈ fields.map padField, p ≠ [] ∧ ∀ c ∈ p, c ≠ '\t' := by
    intro p hpmem
    obtain ⟨f, hfmem, rfl⟩ := List.mem_map.mp hpmem
    exact ⟨padField_ne_nil f, padField_no_tab f (hf f hfmem).2⟩
  have hjoin : (fields.map padField).map (fun p => p ++ ['\t']) =
      fields.map (fun f => padField f ++ ['\t']) := by
    rw [List.map_map]
    rfl
  rw [← hjoin]
  exact splitTab_join (fields.map padField) hmap hmapcond

theorem freqStep_ok (st st2 : ConvState) (l : Str) (h : freqStep st l = Except.ok st2) :
    ∃ q, st2 = { st with quant := q } := by
  rw [freqStep] at h
  split at h
  · split at h
    · split at h
      · simp at h
      · injection h with h2
        exact ⟨_, h2.symm⟩
    · simp at h
  · simp at h

theorem stepLine_marker (totalRows : ℕ) (st : ConvState) (l : Str)
    (hmk : l.take 7 = markerPat) (hfq : l.take 9 ≠ freqPat) :
    stepLine totalRows st l = Except.ok { st with
      headerRows := st.headerRows + 1,
      dataFlag := true,
      half := (totalRows - (st.headerRows + 1)) / 2,
      out := st.out ++
        ["nRows=".toList ++ natToChars (totalRows - (st.headerRows + 1)),
         "nColumns=".toList ++ natToChars ((splitWs l).length + 1 + 9),
         "inDegrees=yes".toList, "endheader".toList, colHeaderLine] } := by
  rw [stepLine]
  simp only [if_neg hfq, exbind_ok, if_pos hmk]

theorem stepLine_skip (totalRows : ℕ) (st : ConvState) (l : Str) (st2 : ConvState)
    (hmk : l.take 7 ≠ markerPat) (hflag : st.dataFlag = false)
    (h : stepLine totalRows st l = Except.ok st2) :
    st2.dataFlag = false ∧ st2.headerRows = st.headerRows + 1 ∧ st2.out = st.out ∧
      st2.time = st.time ∧ st2.frameNumber = st.frameNumber := by
  rw [stepLine] at h
  by_cases hfq : l.take 9 = freqPat
  · simp only [if_pos hfq] at h
    rcases hfs : freqStep { st with headerRows := st.headerRows + 1 } l with e | stf
    · rw [hfs] at h
      simp [exbind_err] at h
    · rw [hfs, exbind_ok] at h
      obtain ⟨q, hq⟩ := freqStep_ok _ _ _ hfs
      subst hq
      rw [if_neg hmk, if_pos (by simp [hflag])] at h
      injection h with h2
      subst h2
      simp [hflag]
  · simp only [if_neg hfq, exbind_ok] at h
    rw [if_neg hmk, if_pos (by simp [hflag])] at h
    injection h with h2
    subst h2
    simp [hflag]

theorem stepLine_data (totalRows : ℕ) (st : ConvState) (l : Str)
    (hfq : l.take 9 ≠ freqPat) (hmk : l.take 7 ≠ markerPat)
    (hflag : st.dataFlag = true) :
    stepLine totalRows st l =
      processDataRow { st with headerRows := st.headerRows + 1 } l := by
  rw [stepLine]
  simp only [if_neg hfq, exbind_ok, if_neg hmk]
  rw [if_neg (by simp [hflag])]

theorem processDataRow_ok (st st2 : ConvState) (l : Str)
    (h : processDataRow st l = Except.ok st2) :
    ∃ fields, st2 = { st with
        out := st.out ++ [formatDataRow st.time (legSplit st.frameNumber st.half fields)],
        frameNumber := st.frameNumber + 1, time := st.time + st.quant } ∧
      transformTokens (splitWs l) = Except.ok fields := by
  rw [processDataRow] at h
  rcases htf : transformTokens (splitWs l) with e | d
  · rw [htf] at h
    simp [exbind_err] at h
  · rw [htf, exbind_ok] at h
    injection h with h2
    exact ⟨d, h2.symm, rfl⟩

theorem runLines_cons (T : ℕ) (l : Str) (rest : List Str) (st : ConvState) :
    runLines T (l :: rest) st = (stepLine T st l) >>= (fun s => runLines T rest s) := rfl

theorem runLines_header (T : ℕ) (pre : List Str) :
    ∀ st st' : ConvState, st.dataFlag = false →
      (∀ l ∈ pre, l.take 7 ≠ markerPat) →
      runLines T pre st = Except.ok st' →
      st'.dataFlag = false ∧ st'.headerRows = st.headerRows + pre.length ∧
        st'.out = st.out ∧ st'.time = st.time ∧ st'.frameNumber = st.frameNumber := by
  induction pre with
  | nil =>
    intro st st' hflag hmk hrun
    injection hrun with h2
    subst h2
    simp [hflag]
  | cons l pre ih =>
    intro st st' hflag hmk hrun
    rw [runLines_cons] at hrun
    rcases hstep : stepLine T st l with e | st1
    · rw [hstep] at hrun
      simp [exbind_err] at hrun
    · rw [hstep, exbind_ok] at hrun
      obtain ⟨hf1, hh1, ho1, ht1, hfr1⟩ :=
        stepLine_skip T st l st1 (hmk l (List.mem_cons_self _ _)) hflag hstep
      obtain ⟨hf2, hh2, ho2, ht2, hfr2⟩ :=
        ih st1 st' hf1 (fun l2 hl2 => hmk l2 (List.mem_cons_of_mem _ hl2)) hrun
      refine ⟨hf2, ?_, ?_, ?_, ?_⟩
      · rw [hh2, hh1, List.length_cons]
        omega
      · rw [ho2, ho1]
      · rw [ht2, ht1]
      · rw [hfr2, hfr1]

theorem runLines_data_times (T : ℕ) (dls : List Str) :
    ∀ st st' : ConvState, st.dataFlag = true →
      (∀ l ∈ dls, l.take 9 ≠ freqPat ∧ l.take 7 ≠ markerPat) →
      runLines T dls st = Except.ok st' →
      ∃ rows : List Str, st'.out = st.out ++ rows ∧ rows.length = dls.length ∧
        ∀ j (hj : j < rows.length), ∃ tail : Str,
          rows.get ⟨j, hj⟩ = rjust 20 (fmt8 (st.time + j * st.quant)) ++ '\t' :: tail := by
  induction dls with
  | nil =>
    intro st st' hflag hc hrun
    injection hrun with h2
    subst h2
    refine ⟨[], by simp, rfl, ?_⟩
    intro j hj
    exact absurd hj (by simp)
  | cons l dls ih =>
    intro st st' hflag hc hrun
    rw [runLines_cons] at hrun
    obtain ⟨hfq, hmk⟩ := hc l (List.mem_cons_self _ _)
    rw [stepLine_data T st l hfq hmk hflag] at hrun
    rcases hpd : processDataRow { st with headerRows := st.headerRows + 1 } l with e | st1
    · rw [hpd] at hrun
      simp [exbind_err] at hrun
    · rw [hpd, exbind_ok] at hrun
      obtain ⟨fields, hst1, _⟩ := processDataRow_ok _ _ _ hpd
      subst hst1
      obtain ⟨rows, hout, hlen, htime⟩ :=
        ih _ st' (by simp [hflag]) (fun l2 hl2 => hc l2 (List.mem_cons_of_mem _ hl2)) hrun
      simp only at hout hlen htime
      refine ⟨formatDataRow st.time
        (legSplit st.frameNumber st.half fields) :: rows, ?_, ?_, ?_⟩
      · rw [hout]
        simp [List.append_assoc]
      · simp [hlen]
      · intro j hj
        rcases j with _ | j
        · refine ⟨rstripTab ((legSplit st.frameNumber st.half fields).foldl
            (fun acc f => acc ++ padField f ++ ['\t']) []), ?_⟩
          show formatDataRow st.time _ = _
          rw [formatDataRow]
          norm_num
        · have hj2 : j < rows.length := by
            simp at hj
            omega
          obtain ⟨tail, htail⟩ := htime j hj2
          refine ⟨tail, ?_⟩
          show rows.get ⟨j, hj2⟩ = _
          rw [htail]
          have harith : st.time + st.quant + (j : ℚ) * st.quant =
              st.time + ((j : ℕ) + 1 : ℕ) * st.quant := by
            push_cast
            ring
          rw [harith]

theorem marker_not_freq {l : Str} (h : l.take 7 = markerPat) : l.take 9 ≠ freqPat := by
  intro hf
  have h7 : (l.take 9).take 7 = l.take 7 := by
    rw [List.take_take]
    norm_num
  rw [hf, h] at h7
  exact absurd h7 (by decide)

/-- Claim C1 (corrected): the per-row axis remap before leg segmentation is the
fixed pipeline of swap, sign reversal, unit scale and shift, and the force
triple (x, y, z) maps to (x - 0.5, z, -y + 0.25) exactly as claimed (so raw
force (1, 2, 3) yields (0.5, 3, -1.75)), and the remapped COP y output is
exactly the zero string.  The claim's COP provenance is corrected: because of
the slot swap at line 306, the written COP x component is the one obtained
from input COP y — scaled by 0.001 and string-sign-flipped, then sign-reversed
again and shifted by -0.5 (net 0.001·y - 0.5) — while the written COP z
component is obtained from input COP x, scaled by 0.001, sign-reversed and
shifted by +0.25 (net -0.001·x + 0.25); it is not derived from input COP y as
the claim states.  `v7r` is the value of the string-sign-flipped eighth token
(for a plain numeric token, v7r = -y).  The hypotheses say each parsed value
is exact at 8 decimals (and the two scaled COP values too), making the
8-decimal padding the identity on values. -/
theorem C1_axis_transform (t0 t1 t2 t3 t4 t5 t6 t7 t8 : Str)
    (v0 v1 v2 v3 v4 v5 v6 v7r : ℚ)
    (h0 : parseF t0 = some v0) (h1 : parseF t1 = some v1) (h2 : parseF t2 = some v2)
    (h3 : parseF t3 = some v3) (h4 : parseF t4 = some v4) (h5 : parseF t5 = some v5)
    (h6 : parseF t6 = some v6) (h7 : parseF (reverseStr t7) = some v7r)
    (e0 : IsExact8 v0) (e1 : IsExact8 v1) (e3 : IsExact8 v3) (e4 : IsExact8 v4)
    (e6 : IsExact8 (v6 / 1000)) (e7 : IsExact8 (v7r / 1000)) :
    transformTokens [t0, t1, t2, t3, t4, t5, t6, t7, t8] =
      Except.ok
        [fmt8 (v0 - 1 / 2), fmt8 v2, fmt8 (-v1 + 1 / 4),
         fmt8 (-v4 - 1 / 2), fmt8 v5, fmt8 (-v3 + 1 / 4),
         fmt8 (-(v7r / 1000) - 1 / 2), zeroStr, fmt8 (-(v6 / 1000) + 1 / 4)] := by
  rw [transformTokens_eval t0 t1 t2 t3 t4 t5 t6 t7 t8 [] v0 v1 v2 v3 v4 v5 v6 v7r
    h0 h1 h2 h3 h4 h5 h6 h7]
  rw [e0.eq, e1.eq, e3.eq, e4.eq, e6.eq, e7.eq, List.append_nil]
  norm_num [sub_eq_add_neg]

/-- Claim C1 witness: the amended transform at force (1, 2, 3), moment
(4, 5, 6) and COP (1000, 2000, 55). -/
theorem C1_axis_transform_witness :
    transformTokens ["1".toList, "2".toList, "3".toList, "4".toList, "5".toList,
        "6".toList, "1000".toList, "2000".toList, "55".toList] =
      Except.ok
        [fmt8 ((1 : ℚ) - 1 / 2), fmt8 (3 : ℚ), fmt8 (-(2 : ℚ) + 1 / 4),
         fmt8 (-(5 : ℚ) - 1 / 2), fmt8 (6 : ℚ), fmt8 (-(4 : ℚ) + 1 / 4),
         fmt8 (-((-2000 : ℚ) / 1000) - 1 / 2), zeroStr,
         fmt8 (-((1000 : ℚ) / 1000) + 1 / 4)] :=
  C1_axis_transform "1".toList "2".toList "3".toList "4".toList "5".toList "6".toList
    "1000".toList "2000".toList "55".toList 1 2 3 4 5 6 1000 (-2000)
    (by decide) (by decide) (by decide) (by decide) (by decide) (by decide)
    (by decide) (by decide) (by decide) (by decide) (by decide) (by decide)
    (by decide) (by decide)

/-- Claim C1 counterexample: for input COP (x, y) = (1000, 2000) the written
COP z field is -0.75000000, i.e. -0.001·x + 0.25; it equals neither the
sign-flipped scaled input COP y (-2.0) nor that value further sign-reversed
and shifted by +0.25 (2.25), and it does not change when input COP y does
(2000 vs 77), so it is not obtained from input COP y as the claim states. -/
theorem C1_cop_counterexample :
    (transformTokens (splitWs "1 2 3 4 5 6 1000 2000 55".toList)).map
        (fun d => d.getD 8 []) = Except.ok ("-0.75000000".toList)
    ∧ (transformTokens (splitWs "1 2 3 4 5 6 1000 77 55".toList)).map
        (fun d => d.getD 8 []) = Except.ok ("-0.75000000".toList)
    ∧ "-0.75000000".toList ≠ fmt8 (-(2000 * (1 / 1000) : ℚ))
    ∧ "-0.75000000".toList ≠ fmt8 ((2000 * (1 / 1000) : ℚ) + 1 / 4) := by
  refine ⟨by decide, by decide, by decide, by decide⟩

/-- Claim C2 (confirmed): for a 9-token data row with 0-based frame index i
and dataset_half = rows / 2 (Python 2 integer division), the data-row branch
puts the transformed force triple and the transformed COP triple into the
right-leg output block (output fields 0-5) and zeroes the left-leg force and
COP blocks when i < rows / 2, and puts them into the left-leg block (output
fields 6-11) zeroing the right-leg blocks otherwise. -/
theorem C2_leg_segmentation (t0 t1 t2 t3 t4 t5 t6 t7 t8 : Str)
    (v0 v1 v2 v3 v4 v5 v6 v7r : ℚ)
    (h0 : parseF t0 = some v0) (h1 : parseF t1 = some v1) (h2 : parseF t2 = some v2)
    (h3 : parseF t3 = some v3) (h4 : parseF t4 = some v4) (h5 : parseF t5 = some v5)
    (h6 : parseF t6 = some v6) (h7 : parseF (reverseStr t7) = some v7r)
    (rows i : ℕ) :
    (transformTokens [t0, t1, t2, t3, t4, t5, t6, t7, t8]).map (legSplit i (rows / 2)) =
      Except.ok
        (if i < rows / 2 then
          [fmt8 (round8 v0 + (-(1 / 2) : ℚ)), fmt8 v2, fmt8 (-(round8 v1) + (1 / 4 : ℚ)),
           fmt8 (-(round8 (v7r / 1000)) + (-(1 / 2) : ℚ)), zeroStr,
           fmt8 (-(round8 (v6 / 1000)) + (1 / 4 : ℚ)),
           zeroStr, zeroStr, zeroStr, zeroStr, zeroStr, zeroStr,
           zeroStr, zeroStr, zeroStr, zeroStr, zeroStr, zeroStr]
        else
          [zeroStr, zeroStr, zeroStr, zeroStr, zeroStr, zeroStr,
           fmt8 (round8 v0 + (-(1 / 2) : ℚ)), fmt8 v2, fmt8 (-(round8 v1) + (1 / 4 : ℚ)),
           fmt8 (-(round8 (v7r / 1000)) + (-(1 / 2) : ℚ)), zeroStr,
           fmt8 (-(round8 (v6 / 1000)) + (1 / 4 : ℚ)),
           zeroStr, zeroStr, zeroStr, zeroStr, zeroStr, zeroStr]) := by
  rw [transformTokens_eval t0 t1 t2 t3 t4 t5 t6 t7 t8 [] v0 v1 v2 v3 v4 v5 v6 v7r
    h0 h1 h2 h3 h4 h5 h6 h7, List.append_nil]
  simp only [Except.map]
  by_cases hi : i < rows / 2
  · rw [if_pos hi, legSplit_eval_right _ _ hi]
    simp [zeroTuple]
  · rw [if_neg hi, legSplit_eval_left _ _ hi]
    simp [zeroTuple]

/-- Claim C2 witness: a concrete 9-token row at frame 2 with rows = 7
(dataset_half = 3, right leg) and the same row at frame 5 (left leg). -/
theorem C2_leg_segmentation_witness :
    (transformTokens ["1".toList, "2".toList, "3".toList, "4".toList, "5".toList,
        "6".toList, "1000".toList, "2000".toList, "55".toList]).map (legSplit 2 (7 / 2)) =
      Except.ok
        (if 2 < 7 / 2 then
          [fmt8 (round8 (1 : ℚ) + (-(1 / 2) : ℚ)), fmt8 (3 : ℚ),
           fmt8 (-(round8 (2 : ℚ)) + (1 / 4 : ℚ)),
           fmt8 (-(round8 ((-2000 : ℚ) / 1000)) + (-(1 / 2) : ℚ)), zeroStr,
           fmt8 (-(round8 ((1000 : ℚ) / 1000)) + (1 / 4 : ℚ)),
           zeroStr, zeroStr, zeroStr, zeroStr, zeroStr, zeroStr,
           zeroStr, zeroStr, zeroStr, zeroStr, zeroStr, zeroStr]
        else
          [zeroStr, zeroStr, zeroStr, zeroStr, zeroStr, zeroStr,
           fmt8 (round8 (1 : ℚ) + (-(1 / 2) : ℚ)), fmt8 (3 : ℚ),
           fmt8 (-(round8 (2 : ℚ)) + (1 / 4 : ℚ)),
           fmt8 (-(round8 ((-2000 : ℚ) / 1000)) + (-(1 / 2) : ℚ)), zeroStr,
           fmt8 (-(round8 ((1000 : ℚ) / 1000)) + (1 / 4 : ℚ)),
           zeroStr, zeroStr, zeroStr, zeroStr, zeroStr, zeroStr]) :=
  C2_leg_segmentation "1".toList "2".toList "3".toList "4".toList "5".toList "6".toList
    "1000".toList "2000".toList "55".toList 1 2 3 4 5 6 1000 (-2000)
    (by decide) (by decide) (by decide) (by decide) (by decide) (by decide)
    (by decide) (by decide) 7 2

/-- Claim C3 (corrected, amended part): every output frame produced from a
9-token data row has all six torque fields (output fields 12-17) and the six
force+COP fields of the inactive leg equal to the literal 8-decimal zero
string, so at most one leg's force+COP block is non-zero. -/
theorem C3_frame_invariant (t0 t1 t2 t3 t4 t5 t6 t7 t8 : Str)
    (v0 v1 v2 v3 v4 v5 v6 v7r : ℚ)
    (h0 : parseF t0 = some v0) (h1 : parseF t1 = some v1) (h2 : parseF t2 = some v2)
    (h3 : parseF t3 = some v3) (h4 : parseF t4 = some v4) (h5 : parseF t5 = some v5)
    (h6 : parseF t6 = some v6) (h7 : parseF (reverseStr t7) = some v7r)
    (i hf : ℕ) (out : List Str)
    (hout : (transformTokens [t0, t1, t2, t3, t4, t5, t6, t7, t8]).map
      (legSplit i hf) = Except.ok out) :
    (∀ s ∈ out.drop 12, s = zeroStr) ∧
      (i < hf → (out.drop 6).take 6 =
        [zeroStr, zeroStr, zeroStr, zeroStr, zeroStr, zeroStr]) ∧
      (¬ i < hf → out.take 6 =
        [zeroStr, zeroStr, zeroStr, zeroStr, zeroStr, zeroStr]) := by
  rw [transformTokens_eval t0 t1 t2 t3 t4 t5 t6 t7 t8 [] v0 v1 v2 v3 v4 v5 v6 v7r
    h0 h1 h2 h3 h4 h5 h6 h7, List.append_nil] at hout
  simp only [Except.map] at hout
  by_cases hi : i < hf
  · rw [legSplit_eval_right _ _ hi] at hout
    injection hout with h2out
    subst h2out
    refine ⟨?_, fun _ => ?_, fun hcontra => absurd hi hcontra⟩
    · intro s hs
      simp [zeroTuple] at hs
      exact hs
    · simp [zeroTuple]
  · rw [legSplit_eval_left _ _ hi] at hout
    injection hout with h2out
    subst h2out
    refine ⟨?_, fun hcontra => absurd hcontra hi, fun _ => ?_⟩
    · intro s hs
      simp [zeroTuple] at hs
      exact hs
    · simp [zeroTuple]

/-- Claim C3 witness: the invariant at a concrete right-leg frame (index 0,
dataset_half 2) of the row with force (1,2,3), moment (4,5,6), COP (1000,2000,55). -/
theorem C3_frame_invariant_witness :
    (∀ s ∈ ([fmt8 (round8 (1 : ℚ) + (-(1 / 2) : ℚ)), fmt8 (3 : ℚ),
        fmt8 (-(round8 (2 : ℚ)) + (1 / 4 : ℚ)),
        fmt8 (-(round8 ((-2000 : ℚ) / 1000)) + (-(1 / 2) : ℚ)), zeroStr,
        fmt8 (-(round8 ((1000 : ℚ) / 1000)) + (1 / 4 : ℚ)),
        zeroStr, zeroStr, zeroStr, zeroStr, zeroStr, zeroStr,
        zeroStr, zeroStr, zeroStr, zeroStr, zeroStr, zeroStr] : List Str).drop 12,
      s = zeroStr) ∧
    ((0 : ℕ) < 2 → (([fmt8 (round8 (1 : ℚ) + (-(1 / 2) : ℚ)), fmt8 (3 : ℚ),
        fmt8 (-(round8 (2 : ℚ)) + (1 / 4 : ℚ)),
        fmt8 (-(round8 ((-2000 : ℚ) / 1000)) + (-(1 / 2) : ℚ)), zeroStr,
        fmt8 (-(round8 ((1000 : ℚ) / 1000)) + (1 / 4 : ℚ)),
        zeroStr, zeroStr, zeroStr, zeroStr, zeroStr, zeroStr,
        zeroStr, zeroStr, zeroStr, zeroStr, zeroStr, zeroStr] : List Str).drop 6).take 6 =
      [zeroStr, zeroStr, zeroStr, zeroStr, zeroStr, zeroStr]) ∧
    (¬ (0 : ℕ) < 2 → ([fmt8 (round8 (1 : ℚ) + (-(1 / 2) : ℚ)), fmt8 (3 : ℚ),
        fmt8 (-(round8 (2 : ℚ)) + (1 / 4 : ℚ)),
        fmt8 (-(round8 ((-2000 : ℚ) / 1000)) + (-(1 / 2) : ℚ)), zeroStr,
        fmt8 (-(round8 ((1000 : ℚ) / 1000)) + (1 / 4 : ℚ)),
        zeroStr, zeroStr, zeroStr, zeroStr, zeroStr, zeroStr,
        zeroStr, zeroStr, zeroStr, zeroStr, zeroStr, zeroStr] : List Str).take 6 =
      [zeroStr, zeroStr, zeroStr, zeroStr, zeroStr, zeroStr]) :=
  C3_frame_invariant "1".toList "2".toList "3".toList "4".toList "5".toList "6".toList
    "1000".toList "2000".toList "55".toList 1 2 3 4 5 6 1000 (-2000)
    (by decide) (by decide) (by decide) (by decide) (by decide) (by decide)
    (by decide) (by decide) 0 2 _ (by decide)

/-- Claim C3 counterexample: a data row on which the active (right) leg block
is also entirely the zero string, so no leg block is non-zero and the claimed
"exactly one leg block non-zero" invariant fails at a written frame; the
inactive-leg and torque parts of the invariant still hold. -/
theorem C3_invariant_counterexample :
    (transformTokens (splitWs "0.5 0.25 0 0 0 0 250 500 0".toList)).map (legSplit 0 2) =
      Except.ok [zeroStr, zeroStr, zeroStr, zeroStr, zeroStr, zeroStr, zeroStr, zeroStr,
        zeroStr, zeroStr, zeroStr, zeroStr, zeroStr, zeroStr, zeroStr, zeroStr, zeroStr,
        zeroStr]
    ∧ ¬ specFrameInvariant [zeroStr, zeroStr, zeroStr, zeroStr, zeroStr, zeroStr, zeroStr,
        zeroStr, zeroStr, zeroStr, zeroStr, zeroStr, zeroStr, zeroStr, zeroStr, zeroStr,
        zeroStr, zeroStr] := by
  refine ⟨by decide, ?_⟩
  intro hcontra
  rcases hcontra with ⟨hiff, _⟩
  simp at hiff

/-- Claim C4 (confirmed): for a file in which the column-name marker line is
found, the nRows value written to the output header equals the total number of
lines in the file minus the number of lines up to and including the marker
line — exactly the number of data lines after the marker, with no off-by-one
error (`post` is the list of lines after the marker). -/
theorem C4_nrows (nm : Str) (pre post : List Str) (mk : Str) (st' : ConvState)
    (hpre : ∀ l ∈ pre, l.take 7 ≠ markerPat)
    (hmk : mk.take 7 = markerPat)
    (hrun : runLines (pre ++ mk :: post).length pre (initState nm) = Except.ok st') :
    ∃ st2 : ConvState, stepLine (pre ++ mk :: post).length st' mk = Except.ok st2 ∧
      st2.out = st'.out ++
        ["nRows=".toList ++ natToChars post.length,
         "nColumns=".toList ++ natToChars ((splitWs mk).length + 1 + 9),
         "inDegrees=yes".toList, "endheader".toList, colHeaderLine] ∧
      st2.half = post.length / 2 ∧ st'.out = (initState nm).out := by
  have hfq := marker_not_freq hmk
  obtain ⟨hflag, hhr, hout, ht, hfr⟩ :=
    runLines_header _ pre (initState nm) st' rfl hpre hrun
  have hrows : (pre ++ mk :: post).length - (st'.headerRows + 1) = post.length := by
    rw [hhr]
    simp [initState, List.length_append]
    omega
  refine ⟨_, stepLine_marker _ st' mk hmk hfq, ?_, ?_, hout⟩
  · show st'.out ++ _ = st'.out ++ _
    rw [hrows]
  · show (_ : ℕ) / 2 = post.length / 2
    rw [hrows]

/-- Claim C4 witness: a concrete header of one FREQUENCY line followed by the
marker line and two data lines: nRows=2 is written. -/
theorem C4_nrows_witness :
    ∃ st2 : ConvState,
      stepLine ((["FREQUENCY\t100".toList] ++
          "Force_X\tForce_Y\tForce_Z\tMoment_X\tMoment_Y\tMoment_Z\tCOP_X\tCOP_Y\tCOP_Z".toList ::
          ["1 2 3 4 5 6 7 8 9".toList, "1 2 3 4 5 6 7 8 9".toList]).length)
        { headerRows := 1, time := 0, quant := 1 / 100, dataFlag := false,
          frameNumber := 0, half := 0, out := ["t.mot".toList, "version=1".toList] }
        "Force_X\tForce_Y\tForce_Z\tMoment_X\tMoment_Y\tMoment_Z\tCOP_X\tCOP_Y\tCOP_Z".toList =
        Except.ok st2 ∧
      st2.out = ["t.mot".toList, "version=1".toList] ++
        ["nRows=".toList ++ natToChars ([("1 2 3 4 5 6 7 8 9".toList : Str),
            "1 2 3 4 5 6 7 8 9".toList] : List Str).length,
         "nColumns=".toList ++ natToChars ((splitWs
            "Force_X\tForce_Y\tForce_Z\tMoment_X\tMoment_Y\tMoment_Z\tCOP_X\tCOP_Y\tCOP_Z".toList).length + 1 + 9),
         "inDegrees=yes".toList, "endheader".toList, colHeaderLine] ∧
      st2.half = ([("1 2 3 4 5 6 7 8 9".toList : Str),
          "1 2 3 4 5 6 7 8 9".toList] : List Str).length / 2 ∧
      ({ headerRows := 1, time := 0, quant := 1 / 100, dataFlag := false,
          frameNumber := 0, half := 0,
          out := ["t.mot".toList, "version=1".toList] } : ConvState).out =
        (initState "t.mot".toList).out :=
  C4_nrows "t.mot".toList ["FREQUENCY\t100".toList]
    ["1 2 3 4 5 6 7 8 9".toList, "1 2 3 4 5 6 7 8 9".toList]
    "Force_X\tForce_Y\tForce_Z\tMoment_X\tMoment_Y\tMoment_Z\tCOP_X\tCOP_Y\tCOP_Z".toList
    { headerRows := 1, time := 0, quant := 1 / 100, dataFlag := false,
      frameNumber := 0, half := 0, out := ["t.mot".toList, "version=1".toList] }
    (by decide) (by decide) (by decide)

/-- Claim C6 (confirmed): in the data phase with `quant = 1/f` for a positive
integer frequency f and running time started at 0 (the state reached right
after the marker line of a file whose header set FREQUENCY to f), the time
value formatted into the k-th written data row is exactly k * (1/f), and the
sequence k * (1/f) is strictly increasing in steps of exactly 1/f. -/
theorem C6_time_column (f : ℤ) (hf : 0 < f) (T : ℕ) (dls : List Str)
    (st st' : ConvState)
    (hflag : st.dataFlag = true) (ht : st.time = 0) (hq : st.quant = 1 / (f : ℚ))
    (hdls : ∀ l ∈ dls, l.take 9 ≠ freqPat ∧ l.take 7 ≠ markerPat)
    (hrun : runLines T dls st = Except.ok st') :
    ∃ rows : List Str, st'.out = st.out ++ rows ∧ rows.length = dls.length ∧
      (∀ j (hj : j < rows.length), ∃ tail : Str,
        rows.get ⟨j, hj⟩ = rjust 20 (fmt8 ((j : ℚ) * (1 / (f : ℚ)))) ++ '\t' :: tail) ∧
      (∀ k : ℕ, (k : ℚ) * (1 / (f : ℚ)) < ((k : ℚ) + 1) * (1 / (f : ℚ)) ∧
        ((k : ℚ) + 1) * (1 / (f : ℚ)) = (k : ℚ) * (1 / (f : ℚ)) + 1 / (f : ℚ)) := by
  obtain ⟨rows, hout, hlen, htime⟩ := runLines_data_times T dls st st' hflag hdls hrun
  refine ⟨rows, hout, hlen, ?_, ?_⟩
  · intro j hj
    obtain ⟨tail, htail⟩ := htime j hj
    refine ⟨tail, ?_⟩
    rw [htail, ht, hq]
    norm_num
  · intro k
    have hfq : (0 : ℚ) < 1 / (f : ℚ) := by
      apply one_div_pos.mpr
      exact_mod_cast hf
    constructor
    · have : (k : ℚ) < (k : ℚ) + 1 := by linarith
      exact mul_lt_mul_of_pos_right this hfq
    · ring

set_option maxRecDepth 4000 in
/-- Claim C6 witness: one data row at frequency 100 from the post-marker
state; its time field is 0 * (1/100). -/
theorem C6_time_column_witness :
    ∃ rows : List Str,
      ({ headerRows := 3, time := 0 + 1 / 100, quant := 1 / 100, dataFlag := true,
          frameNumber := 1, half := 1,
          out := ["x".toList,
            formatDataRow 0 (legSplit 0 1 [fmt8 (round8 (1 : ℚ) + (-(1 / 2) : ℚ)),
              fmt8 (3 : ℚ), fmt8 (-(round8 (2 : ℚ)) + (1 / 4 : ℚ)),
              fmt8 (-(round8 (5 : ℚ)) + (-(1 / 2) : ℚ)), fmt8 (6 : ℚ),
              fmt8 (-(round8 (4 : ℚ)) + (1 / 4 : ℚ)),
              fmt8 (-(round8 ((-8 : ℚ) / 1000)) + (-(1 / 2) : ℚ)), zeroStr,
              fmt8 (-(round8 ((7 : ℚ) / 1000)) + (1 / 4 : ℚ))])] } : ConvState).out =
        ({ headerRows := 2, time := 0, quant := 1 / 100, dataFlag := true,
            frameNumber := 0, half := 1, out := ["x".toList] } : ConvState).out ++ rows ∧
      rows.length = ([("1 2 3 4 5 6 7 8 9".toList : Str)] : List Str).length ∧
      (∀ j (hj : j < rows.length), ∃ tail : Str,
        rows.get ⟨j, hj⟩ = rjust 20 (fmt8 ((j : ℚ) * (1 / ((100 : ℤ) : ℚ)))) ++ '\t' :: tail) ∧
      (∀ k : ℕ, (k : ℚ) * (1 / ((100 : ℤ) : ℚ)) < ((k : ℚ) + 1) * (1 / ((100 : ℤ) : ℚ)) ∧
        ((k : ℚ) + 1) * (1 / ((100 : ℤ) : ℚ)) =
          (k : ℚ) * (1 / ((100 : ℤ) : ℚ)) + 1 / ((100 : ℤ) : ℚ)) :=
  C6_time_column 100 (by decide) 3 ["1 2 3 4 5 6 7 8 9".toList]
    { headerRows := 2, time := 0, quant := 1 / 100, dataFlag := true,
      frameNumber := 0, half := 1, out := ["x".toList] }
    _ rfl rfl (by norm_num) (by decide) (by decide)

/-- Claim C7 (corrected, amended part): when the column-name marker line is
never found, the conversion does not fail at all — no data rows are written
and, whenever the run succeeds, the output file holds exactly the name line
and the version line.  There is no MissingMarkerError anywhere in the
program. -/
theorem C7_missing_marker (fname : String) (lines : List Str) (out : List Str)
    (hmk : ∀ l ∈ lines, l.take 7 ≠ markerPat)
    (h : convert fname lines = Except.ok out) :
    out = [replaceTsvMot fname.toList, "version=1".toList] := by
  rw [convert] at h
  rcases hr : runLines lines.length lines
      (initState (replaceTsvMot fname.toList)) with e | st'
  · rw [hr] at h
    simp [Except.map] at h
  · rw [hr] at h
    simp only [Except.map] at h
    injection h with h2
    obtain ⟨_, _, hout, _, _⟩ :=
      runLines_header _ lines _ st' rfl hmk hr
    rw [← h2, hout]
    rfl

/-- Claim C7 witness: a markerless two-line file (with a FREQUENCY line)
converts successfully to just the name and version lines. -/
theorem C7_missing_marker_witness :
    ["b.mot".toList, "version=1".toList] =
      [replaceTsvMot "b.tsv".toList, "version=1".toList] :=
  C7_missing_marker "b.tsv" ["FREQUENCY\t50".toList, "other stuff".toList]
    ["b.mot".toList, "version=1".toList] (by decide) (by decide)

/-- Claim C7 counterexample: a file with no marker line does not fail — the
conversion succeeds (the claim says it fails with MissingMarkerError), the
file is not skipped, and its truncated two-line output is produced. -/
theorem C7_counterexample :
    convert "input.tsv" ["some header line".toList] =
      Except.ok ["input.mot".toList, "version=1".toList] := by
  decide

/-- Helper for claim C8: a row with fewer than 9 whitespace tokens always
fails (IndexError in the model, matching Python list indexing). -/
theorem C8_short_fails (d : List Str) (hlen : d.length < 9) :
    isErr (transformTokens d) = true := by
  rcases d with _ | ⟨t0, d⟩
  · decide
  rcases h0 : parseF t0 with _ | v0
  · simp only [transformTokens, getTok, setTok, parseFE, isErr, h0, exbind_ok, exbind_err,
      Except.map]
  rcases d with _ | ⟨t1, d⟩
  · simp only [transformTokens, getTok, setTok, parseFE, isErr, h0, exbind_ok, exbind_err,
      Except.map]
  rcases d with _ | ⟨t2, d⟩
  · simp only [transformTokens, getTok, setTok, parseFE, isErr, h0, exbind_ok, exbind_err,
      Except.map]
  rcases d with _ | ⟨t3, d⟩
  · simp only [transformTokens, getTok, setTok, parseFE, isErr, h0, exbind_ok, exbind_err,
      Except.map]
  rcases h3 : parseF t3 with _ | v3
  · simp only [transformTokens, getTok, setTok, parseFE, isErr, h0, h3, exbind_ok, exbind_err,
      Except.map]
  rcases d with _ | ⟨t4, d⟩
  · simp only [transformTokens, getTok, setTok, parseFE, isErr, h0, h3, exbind_ok, exbind_err,
      Except.map]
  rcases d with _ | ⟨t5, d⟩
  · simp only [transformTokens, getTok, setTok, parseFE, isErr, h0, h3, exbind_ok, exbind_err,
      Except.map]
  rcases d with _ | ⟨t6, d⟩
  · simp only [transformTokens, getTok, setTok, parseFE, isErr, h0, h3, exbind_ok, exbind_err,
      Except.map]
  rcases h6 : parseF t6 with _ | v6
  · simp only [transformTokens, getTok, setTok, parseFE, isErr, h0, h3, h6, exbind_ok,
      exbind_err, Except.map]
  rcases h2 : parseF t2 with _ | v2
  · simp only [transformTokens, getTok, setTok, parseFE, isErr, h0, h3, h6, h2, exbind_ok,
      exbind_err, Except.map]
  rcases h1 : parseF t1 with _ | v1
  · simp only [transformTokens, getTok, setTok, parseFE, isErr, h0, h3, h6, h2, h1, exbind_ok,
      exbind_err, Except.map]
  rcases h5 : parseF t5 with _ | v5
  · simp only [transformTokens, getTok, setTok, parseFE, isErr, h0, h3, h6, h2, h1, h5,
      exbind_ok, exbind_err, Except.map]
  rcases h4 : parseF t4 with _ | v4
  · simp only [transformTokens, getTok, setTok, parseFE, isErr, h0, h3, h6, h2, h1, h5, h4,
      exbind_ok, exbind_err, Except.map]
  rcases d with _ | ⟨t7, d⟩
  · simp only [transformTokens, getTok, setTok, parseFE, isErr, h0, h3, h6, h2, h1, h5, h4,
      exbind_ok, exbind_err, Except.map]
  rcases h7 : parseF (reverseStr t7) with _ | v7r
  · simp only [transformTokens, getTok, setTok, parseFE, isErr, h0, h3, h6, h2, h1, h5, h4,
      h7, exbind_ok, exbind_err, Except.map]
  rcases d with _ | ⟨t8, d⟩
  · simp only [transformTokens, getTok, setTok, parseFE, isErr, h0, h3, h6, h2, h1, h5, h4,
      h7, exbind_ok, exbind_err, Except.map]
  · simp only [List.length_cons] at hlen
    omega


/-- Claim C8 (amended): row processing fails if and only if the row has
fewer than 9 tokens, or one of tokens 0-6 fails to parse as a float, or
the string-sign-flipped token 7 fails to parse; the 9th token (index 8)
is never parsed, so its content cannot cause a failure. -/
theorem C8_row_failure (d : List Str) :
    isErr (transformTokens d) = true ↔
      (d.length < 9 ∨ parseF (d.getD 0 []) = none ∨ parseF (d.getD 1 []) = none ∨
       parseF (d.getD 2 []) = none ∨ parseF (d.getD 3 []) = none ∨
       parseF (d.getD 4 []) = none ∨ parseF (d.getD 5 []) = none ∨
       parseF (d.getD 6 []) = none ∨ parseF (reverseStr (d.getD 7 [])) = none) := by
  by_cases hlen : d.length < 9
  · simp only [hlen, true_or, iff_true]
    exact C8_short_fails d hlen
  · rcases d with _ | ⟨t0, _ | ⟨t1, _ | ⟨t2, _ | ⟨t3, _ | ⟨t4, _ | ⟨t5, _ |
      ⟨t6, _ | ⟨t7, _ | ⟨t8, rest⟩⟩⟩⟩⟩⟩⟩⟩⟩
    · exact absurd (by simp) hlen
    · exact absurd (by simp) hlen
    · exact absurd (by simp) hlen
    · exact absurd (by simp) hlen
    · exact absurd (by simp) hlen
    · exact absurd (by simp) hlen
    · exact absurd (by simp) hlen
    · exact absurd (by simp) hlen
    · exact absurd (by simp) hlen
    rcases h0 : parseF t0 with _ | v0
    · refine iff_of_true ?_ (by simp [List.getD, h0])
      simp only [transformTokens, getTok, setTok, parseFE, h0, exbind_ok, exbind_err,
        Except.map, isErr]
    rcases h3 : parseF t3 with _ | v3
    · refine iff_of_true ?_ (by simp [List.getD, h3])
      simp only [transformTokens, getTok, setTok, parseFE, h0, h3, exbind_ok, exbind_err,
        Except.map, isErr]
    rcases h6 : parseF t6 with _ | v6
    · refine iff_of_true ?_ (by simp [List.getD, h6])
      simp only [transformTokens, getTok, setTok, parseFE, h0, h3, h6, exbind_ok,
        exbind_err, Except.map, isErr]
    rcases h2 : parseF t2 with _ | v2
    · refine iff_of_true ?_ (by simp [List.getD, h2])
      simp only [transformTokens, getTok, setTok, parseFE, h0, h3, h6, h2, exbind_ok,
        exbind_err, Except.map, isErr]
    rcases h1 : parseF t1 with _ | v1
    · refine iff_of_true ?_ (by simp [List.getD, h1])
      simp only [transformTokens, getTok, setTok, parseFE, h0, h3, h6, h2, h1, exbind_ok,
        exbind_err, Except.map, isErr]
    rcases h5 : parseF t5 with _ | v5
    · refine iff_of_true ?_ (by simp [List.getD, h5])
      simp only [transformTokens, getTok, setTok, parseFE, h0, h3, h6, h2, h1, h5,
        exbind_ok, exbind_err, Except.map, isErr]
    rcases h4 : parseF t4 with _ | v4
    · refine iff_of_true ?_ (by simp [List.getD, h4])
      simp only [transformTokens, getTok, setTok, parseFE, h0, h3, h6, h2, h1, h5, h4,
        exbind_ok, exbind_err, Except.map, isErr]
    rcases h7 : parseF (reverseStr t7) with _ | v7r
    · refine iff_of_true ?_ (by simp [List.getD, h7])
      simp only [transformTokens, getTok, setTok, parseFE, h0, h3, h6, h2, h1, h5, h4,
        h7, exbind_ok, exbind_err, Except.map, isErr]
    · refine iff_of_false ?_ ?_
      · rw [transformTokens_eval t0 t1 t2 t3 t4 t5 t6 t7 t8 rest v0 v1 v2 v3 v4 v5 v6 v7r
          h0 h1 h2 h3 h4 h5 h6 h7]
        simp [isErr]
      · intro hcontra
        rcases hcontra with h | h | h | h | h | h | h | h | h
        · simp only [List.length_cons] at h
          omega
        all_goals simp_all [List.getD]

/-- Claim C8 counterexample: the row "1 2 3 4 5 6 7 8 x" has exactly 9
whitespace-separated tokens of which the last is not parseable as a float,
yet row processing succeeds — refuting the claim that any non-parseable
token makes the row fail. -/
theorem C8_counterexample :
    (splitWs ("1 2 3 4 5 6 7 8 x".toList)).length = 9 ∧
    parseF ((splitWs ("1 2 3 4 5 6 7 8 x".toList)).getD 8 []) = none ∧
    isErr (transformTokens (splitWs ("1 2 3 4 5 6 7 8 x".toList))) = false := by
  refine ⟨by decide, by decide, by decide⟩

/-- Claim C9 (confirmed): on any value string made of an optional leading
minus sign, a nonempty run of integer digits, a decimal point and exactly 8
fractional digits, the ad hoc sign-and-decimal padding loop of lines
405-433 agrees with standard fixed-point right-justification: it returns
the signed integer part right-justified to width 11 followed by the dot
and the 8 fractional digits, which equals the whole string right-justified
to width 20, preserving the sign and the full string. -/
theorem C9_pad_equiv (neg : Bool) (intPart frac : Str)
    (hip : intPart ≠ []) (hipd : ∀ c ∈ intPart, c.isDigit = true)
    (hfl : frac.length = 8) (hfd : ∀ c ∈ frac, c.isDigit = true) :
    padField (((if neg then ['-'] else []) ++ intPart) ++ '.' :: frac) =
      rjust 11 ((if neg then ['-'] else []) ++ intPart) ++ '.' :: frac ∧
    padField (((if neg then ['-'] else []) ++ intPart) ++ '.' :: frac) =
      rjust 20 (((if neg then ['-'] else []) ++ intPart) ++ '.' :: frac) := by
  set A : Str := (if neg then ['-'] else []) ++ intPart with hA
  have hAdot : ∀ c ∈ A, c ≠ '.' := by
    intro c hc
    rw [hA] at hc
    rcases List.mem_append.mp hc with h | h
    · cases neg
      · simp at h
      · simp at h
        subst h
        decide
    · exact isDigit_ne_dot (hipd c h)
  have hfdot : ∀ c ∈ frac, c ≠ '.' := fun c hc => isDigit_ne_dot (hfd c hc)
  have hsplit : splitOnChar '.' (A ++ '.' :: frac) = [A, frac] := by
    rw [splitOnChar_append_sep _ _ _ hAdot, splitOnChar_of_not_mem _ _ hfdot]
  have hstep1 : padStep [] A = rjust 11 A := by
    rw [padStep]
    split <;> simp
  have hlen : ¬ (rjust 11 A).length < 1 := by
    have := rjust_length_ge 11 A
    omega
  have hfh : ¬ frac.head? = some '-' := by
    rcases frac with _ | ⟨c, r⟩
    · simp at hfl
    · have hcm := isDigit_ne_minus (hfd c (List.mem_cons_self _ _))
      simp [hcm]
  have hstep2 : padStep (rjust 11 A) frac = rjust 11 A ++ '.' :: frac := by
    rw [padStep, if_neg hfh, if_neg hlen]
  have h1 : padField (A ++ '.' :: frac) = rjust 11 A ++ '.' :: frac := by
    rw [padField, hsplit]
    simp only [List.foldl_cons, List.foldl_nil, hstep1, hstep2]
  have h2 : rjust 11 A ++ '.' :: frac = rjust 20 (A ++ '.' :: frac) := by
    rw [rjust, rjust]
    have hl : (A ++ '.' :: frac).length = A.length + 9 := by
      simp [hfl]
    rw [hl]
    have h20 : 20 - (A.length + 9) = 11 - A.length := by omega
    rw [h20, List.append_assoc]
  exact ⟨h1, h1.trans h2⟩

/-- Claim C9 witness: the padding loop on the concrete value string
-0.49200000 produces the width-11 justified integer part followed by the
fraction, equal to the width-20 justified whole string. -/
theorem C9_pad_equiv_witness :
    (padField (((if true then ['-'] else []) ++ "0".toList) ++ '.' :: "49200000".toList) =
      rjust 11 ((if true then ['-'] else []) ++ "0".toList) ++ '.' :: "49200000".toList ∧
    padField (((if true then ['-'] else []) ++ "0".toList) ++ '.' :: "49200000".toList) =
      rjust 20 (((if true then ['-'] else []) ++ "0".toList) ++ '.' :: "49200000".toList)) :=
  C9_pad_equiv true "0".toList "49200000".toList (by decide) (by decide)
    (by decide) (by decide)

/-- Helper for claim C10: splitting a formatted data row on tabs yields one
time field plus one field per entry of the 9-slot block, the surplus
tokens, and the appended zero tail, with the surplus slice mapped through
the padding loop. -/
theorem padRow_aux (time : ℚ) (a0 a1 a2 a3 a4 a5 a6 a7 a8 : Str)
    (rest tail : List Str)
    (ha : ∀ p ∈ [a0, a1, a2, a3, a4, a5, a6, a7, a8], p ≠ [] ∧ ∀ c ∈ p, c ≠ '\t')
    (hrest : ∀ p ∈ rest, p ≠ [] ∧ ∀ c ∈ p, c ≠ '\t')
    (htail : ∀ p ∈ tail, p ≠ [] ∧ ∀ c ∈ p, c ≠ '\t') :
    (splitOnChar '\t' (formatDataRow time
        (a0 :: a1 :: a2 :: a3 :: a4 :: a5 :: a6 :: a7 :: a8 :: (rest ++ tail)))).length =
      10 + rest.length + tail.length ∧
    ((splitOnChar '\t' (formatDataRow time
        (a0 :: a1 :: a2 :: a3 :: a4 :: a5 :: a6 :: a7 :: a8 :: (rest ++ tail)))).drop 10).take
      rest.length = rest.map padField := by
  have hcond : ∀ p ∈ (a0 :: a1 :: a2 :: a3 :: a4 :: a5 :: a6 :: a7 :: a8 :: (rest ++ tail)),
      p ≠ [] ∧ ∀ c ∈ p, c ≠ '\t' := by
    intro p hp
    simp only [List.mem_cons, List.mem_append] at hp
    rcases hp with rfl | rfl | rfl | rfl | rfl | rfl | rfl | rfl | rfl | hm | hm
    · exact ha p (by simp)
    · exact ha p (by simp)
    · exact ha p (by simp)
    · exact ha p (by simp)
    · exact ha p (by simp)
    · exact ha p (by simp)
    · exact ha p (by simp)
    · exact ha p (by simp)
    · exact ha p (by simp)
    · exact hrest p hm
    · exact htail p hm
  rw [formatDataRow_split time _ (by simp) hcond]
  constructor
  · simp only [List.length_cons, List.length_map, List.length_append]
    omega
  · simp only [List.map_cons, List.map_append, List.drop_succ_cons, List.drop_zero]
    rw [List.take_left' (by rw [List.length_map])]

/-- Claim C10 (confirmed): for a data row of 9 + k whitespace tokens whose
first 8 relevant tokens parse as floats, the written line splits on tabs
into exactly (9 + k) + 10 fields — 19 when k = 0, more when k > 0 — and the
k surplus input tokens are carried through (padded) at positions 10 to
9 + k, between the transformed 9-field block and the appended zero
triples. -/
theorem C10_column_count (time : ℚ) (frame half : ℕ)
    (t0 t1 t2 t3 t4 t5 t6 t7 t8 : Str) (rest : List Str)
    (v0 v1 v2 v3 v4 v5 v6 v7r : ℚ)
    (h0 : parseF t0 = some v0) (h1 : parseF t1 = some v1) (h2 : parseF t2 = some v2)
    (h3 : parseF t3 = some v3) (h4 : parseF t4 = some v4) (h5 : parseF t5 = some v5)
    (h6 : parseF t6 = some v6) (h7 : parseF (reverseStr t7) = some v7r)
    (hrest : ∀ t ∈ rest, t ≠ [] ∧ ∀ c ∈ t, c ≠ '\t') :
    ∃ d, transformTokens (t0 :: t1 :: t2 :: t3 :: t4 :: t5 :: t6 :: t7 :: t8 :: rest) =
        Except.ok d ∧
      (splitOnChar '\t' (formatDataRow time (legSplit frame half d))).length =
          (t0 :: t1 :: t2 :: t3 :: t4 :: t5 :: t6 :: t7 :: t8 :: rest).length + 10 ∧
      ((splitOnChar '\t' (formatDataRow time (legSplit frame half d))).drop 10).take
          rest.length = rest.map padField := by
  refine ⟨_, transformTokens_eval t0 t1 t2 t3 t4 t5 t6 t7 t8 rest v0 v1 v2 v3 v4 v5 v6 v7r
    h0 h1 h2 h3 h4 h5 h6 h7, ?_⟩
  simp only [List.cons_append, List.nil_append]
  by_cases hfr : frame < half
  · rw [legSplit_eval_right _ _ hfr]
    have haux := padRow_aux time
      (fmt8 (round8 v0 + (-(1 / 2) : ℚ))) (fmt8 v2) (fmt8 (-(round8 v1) + (1 / 4 : ℚ)))
      (fmt8 (-(round8 (v7r / 1000)) + (-(1 / 2) : ℚ))) zeroStr
      (fmt8 (-(round8 (v6 / 1000)) + (1 / 4 : ℚ))) zeroStr zeroStr zeroStr
      rest (zeroTuple ++ zeroTuple ++ zeroTuple)
      (by
        intro p hp
        simp only [List.mem_cons, List.not_mem_nil, or_false] at hp
        rcases hp with rfl | rfl | rfl | rfl | rfl | rfl | rfl | rfl | rfl
        · exact ⟨fmt8_ne_nil _, fmt8_no_tab _⟩
        · exact ⟨fmt8_ne_nil _, fmt8_no_tab _⟩
        · exact ⟨fmt8_ne_nil _, fmt8_no_tab _⟩
        · exact ⟨fmt8_ne_nil _, fmt8_no_tab _⟩
        · exact ⟨zeroStr_ne_nil, zeroStr_no_tab⟩
        · exact ⟨fmt8_ne_nil _, fmt8_no_tab _⟩
        · exact ⟨zeroStr_ne_nil, zeroStr_no_tab⟩
        · exact ⟨zeroStr_ne_nil, zeroStr_no_tab⟩
        · exact ⟨zeroStr_ne_nil, zeroStr_no_tab⟩)
      hrest
      (by decide)
    refine ⟨?_, haux.2⟩
    rw [haux.1]
    simp only [List.length_cons, List.length_append, zeroTuple, List.length_nil]
    omega
  · rw [legSplit_eval_left _ _ hfr]
    have haux := padRow_aux time
      zeroStr zeroStr zeroStr zeroStr zeroStr zeroStr
      (fmt8 (round8 v0 + (-(1 / 2) : ℚ))) (fmt8 v2) (fmt8 (-(round8 v1) + (1 / 4 : ℚ)))
      rest
      ([fmt8 (-(round8 (v7r / 1000)) + (-(1 / 2) : ℚ)), zeroStr,
        fmt8 (-(round8 (v6 / 1000)) + (1 / 4 : ℚ))] ++ zeroTuple ++ zeroTuple)
      (by
        intro p hp
        simp only [List.mem_cons, List.not_mem_nil, or_false] at hp
        rcases hp with rfl | rfl | rfl | rfl | rfl | rfl | rfl | rfl | rfl
        · exact ⟨zeroStr_ne_nil, zeroStr_no_tab⟩
        · exact ⟨zeroStr_ne_nil, zeroStr_no_tab⟩
        · exact ⟨zeroStr_ne_nil, zeroStr_no_tab⟩
        · exact ⟨zeroStr_ne_nil, zeroStr_no_tab⟩
        · exact ⟨zeroStr_ne_nil, zeroStr_no_tab⟩
        · exact ⟨zeroStr_ne_nil, zeroStr_no_tab⟩
        · exact ⟨fmt8_ne_nil _, fmt8_no_tab _⟩
        · exact ⟨fmt8_ne_nil _, fmt8_no_tab _⟩
        · exact ⟨fmt8_ne_nil _, fmt8_no_tab _⟩)
      hrest
      (by
        intro p hp
        simp only [zeroTuple, List.cons_append, List.nil_append, List.mem_cons,
          List.not_mem_nil, or_false] at hp
        rcases hp with rfl | rfl | rfl | rfl | rfl | rfl | hq
        · exact ⟨fmt8_ne_nil _, fmt8_no_tab _⟩
        · exact ⟨zeroStr_ne_nil, zeroStr_no_tab⟩
        · exact ⟨fmt8_ne_nil _, fmt8_no_tab _⟩
        · exact ⟨zeroStr_ne_nil, zeroStr_no_tab⟩
        · exact ⟨zeroStr_ne_nil, zeroStr_no_tab⟩
        · exact ⟨zeroStr_ne_nil, zeroStr_no_tab⟩
        · rcases hq with rfl | rfl | rfl <;> exact ⟨zeroStr_ne_nil, zeroStr_no_tab⟩)
    refine ⟨?_, haux.2⟩
    rw [haux.1]
    simp only [List.length_cons, List.length_append, zeroTuple, List.length_nil]
    omega

/-- Claim C10 witness: a concrete 10-token row yields an output line of
20 tab-separated fields with the surplus token carried through padded. -/
theorem C10_column_count_witness :
    ∃ d, transformTokens ("1".toList :: "2".toList :: "3".toList :: "4".toList ::
        "5".toList :: "6".toList :: "7".toList :: "8".toList :: "9".toList ::
        ["10".toList]) = Except.ok d ∧
      (splitOnChar '\t' (formatDataRow 0 (legSplit 0 1 d))).length =
          ("1".toList :: "2".toList :: "3".toList :: "4".toList :: "5".toList ::
            "6".toList :: "7".toList :: "8".toList :: "9".toList ::
            ["10".toList]).length + 10 ∧
      ((splitOnChar '\t' (formatDataRow 0 (legSplit 0 1 d))).drop 10).take
          (["10".toList] : List Str).length = (["10".toList] : List Str).map padField :=
  C10_column_count 0 0 1 "1".toList "2".toList "3".toList "4".toList "5".toList
    "6".toList "7".toList "8".toList "9".toList ["10".toList]
    1 2 3 4 5 6 7 (-8)
    (by decide) (by decide) (by decide) (by decide) (by decide) (by decide)
    (by decide) (by decide) (by decide)

/-- Running the loop over an append runs it over the two parts in sequence. -/
theorem runLines_append (T : ℕ) (a : List Str) : ∀ (b : List Str) (st : ConvState),
    runLines T (a ++ b) st = (runLines T a st) >>= (fun s => runLines T b s) := by
  induction a with
  | nil =>
    intro b st
    rfl
  | cons l a ih =>
    intro b st
    rw [List.cons_append, runLines_cons, runLines_cons]
    rcases hstep : stepLine T st l with e | st1
    · simp only [hstep, exbind_err]
    · simp only [hstep, exbind_ok, ih]

/-- Claim C5 (amended): for every successfully converted file whose input
consists of a marker-free prefix, a column-name marker line and the remaining
lines, the output begins with exactly these lines in this order, each on its
own line: the output file name, version=1, nRows=<n>, nColumns=<n>,
inDegrees=yes, endheader and the column-header line, followed by one written
data row per remaining input line.  The unrestricted claim over every
successfully converted file is false: a markerless file also converts
successfully but its output has only the first two of these lines. -/
theorem C5_preamble (fname : String) (pre : List Str) (mk : Str) (post : List Str)
    (out : List Str)
    (hpre : ∀ l ∈ pre, l.take 7 ≠ markerPat)
    (hmk : mk.take 7 = markerPat)
    (hpost : ∀ l ∈ post, l.take 9 ≠ freqPat ∧ l.take 7 ≠ markerPat)
    (h : convert fname (pre ++ mk :: post) = Except.ok out) :
    ∃ rows : List Str, rows.length = post.length ∧
      out = replaceTsvMot fname.toList :: "version=1".toList ::
        ("nRows=".toList ++ natToChars post.length) ::
        ("nColumns=".toList ++ natToChars ((splitWs mk).length + 1 + 9)) ::
        "inDegrees=yes".toList :: "endheader".toList :: colHeaderLine :: rows := by
  rw [convert] at h
  rcases hr : runLines (pre ++ mk :: post).length (pre ++ mk :: post)
      (initState (replaceTsvMot fname.toList)) with e | st'
  · rw [hr] at h
    simp [Except.map] at h
  · rw [hr] at h
    simp only [Except.map] at h
    injection h with h2
    rw [runLines_append] at hr
    rcases hpr : runLines (pre ++ mk :: post).length pre
        (initState (replaceTsvMot fname.toList)) with e | st1
    · rw [hpr, exbind_err] at hr
      cases hr
    · rw [hpr, exbind_ok] at hr
      obtain ⟨hflag1, hhr1, hout1, _, _⟩ :=
        runLines_header _ pre _ st1 rfl hpre hpr
      rw [runLines_cons,
        stepLine_marker _ st1 mk hmk (marker_not_freq hmk), exbind_ok] at hr
      obtain ⟨rows, houtM, hlen, _⟩ :=
        runLines_data_times _ post _ st' rfl hpost hr
      refine ⟨rows, hlen, ?_⟩
      have hnr : (pre ++ mk :: post).length - (st1.headerRows + 1) = post.length := by
        rw [hhr1]
        simp only [initState, List.length_append, List.length_cons]
        omega
      rw [← h2, houtM]
      simp only [hnr, hout1, initState]
      rfl

set_option maxRecDepth 20000 in
/-- Claim C5 witness: the 4-row synthetic file with FREQUENCY 100 satisfies
the amended preamble property, with nRows=4 and nColumns=19. -/
theorem C5_preamble_witness :
    ∃ rows : List Str,
      rows.length = ["1 2 3 4 5 6 7 8 9".toList, "1 2 3 4 5 6 7 8 9".toList,
        "1 2 3 4 5 6 7 8 9".toList, "1 2 3 4 5 6 7 8 9".toList].length ∧
      ["test.mot".toList,
       "version=1".toList,
       "nRows=4".toList,
       "nColumns=19".toList,
       "inDegrees=yes".toList,
       "endheader".toList,
       "                time\t   R_ground_force_vx\t   R_ground_force_vy\t   R_ground_force_vz\t   R_ground_force_px\t   R_ground_force_py\t   R_ground_force_pz\t   L_ground_force_vx\t   L_ground_force_vy\t   L_ground_force_vz\t   L_ground_force_px\t   L_ground_force_py\t   L_ground_force_pz\t   R_ground_torque_x\t   R_ground_torque_y\t   R_ground_torque_z\t   L_ground_torque_x\t   L_ground_torque_y\t   L_ground_torque_z".toList,
       "          0.00000000\t          0.50000000\t          3.00000000\t         -1.75000000\t         -0.49200000\t          0.00000000\t          0.24300000\t          0.00000000\t          0.00000000\t          0.00000000\t          0.00000000\t          0.00000000\t          0.00000000\t          0.00000000\t          0.00000000\t          0.00000000\t          0.00000000\t          0.00000000\t          0.00000000".toList,
       "          0.01000000\t          0.50000000\t          3.00000000\t         -1.75000000\t         -0.49200000\t          0.00000000\t          0.24300000\t          0.00000000\t          0.00000000\t          0.00000000\t          0.00000000\t          0.00000000\t          0.00000000\t          0.00000000\t          0.00000000\t          0.00000000\t          0.00000000\t          0.00000000\t          0.00000000".toList,
       "          0.02000000\t          0.00000000\t          0.00000000\t          0.00000000\t          0.00000000\t          0.00000000\t          0.00000000\t          0.50000000\t          3.00000000\t         -1.75000000\t         -0.49200000\t          0.00000000\t          0.24300000\t          0.00000000\t          0.00000000\t          0.00000000\t          0.00000000\t          0.00000000\t          0.00000000".toList,
       "          0.03000000\t          0.00000000\t          0.00000000\t          0.00000000\t          0.00000000\t          0.00000000\t          0.00000000\t          0.50000000\t          3.00000000\t         -1.75000000\t         -0.49200000\t          0.00000000\t          0.24300000\t          0.00000000\t          0.00000000\t          0.00000000\t          0.00000000\t          0.00000000\t          0.00000000".toList] =
        replaceTsvMot "test.tsv".toList :: "version=1".toList ::
        ("nRows=".toList ++ natToChars ["1 2 3 4 5 6 7 8 9".toList,
          "1 2 3 4 5 6 7 8 9".toList, "1 2 3 4 5 6 7 8 9".toList,
          "1 2 3 4 5 6 7 8 9".toList].length) ::
        ("nColumns=".toList ++ natToChars ((splitWs
          "Force_X\tForce_Y\tForce_Z\tMoment_X\tMoment_Y\tMoment_Z\tCOP_X\tCOP_Y\tCOP_Z".toList).length + 1 + 9)) ::
        "inDegrees=yes".toList :: "endheader".toList :: colHeaderLine :: rows :=
  C5_preamble "test.tsv" ["FREQUENCY\t100".toList]
    "Force_X\tForce_Y\tForce_Z\tMoment_X\tMoment_Y\tMoment_Z\tCOP_X\tCOP_Y\tCOP_Z".toList
    ["1 2 3 4 5 6 7 8 9".toList, "1 2 3 4 5 6 7 8 9".toList,
     "1 2 3 4 5 6 7 8 9".toList, "1 2 3 4 5 6 7 8 9".toList]
    ["test.mot".toList,
     "version=1".toList,
     "nRows=4".toList,
     "nColumns=19".toList,
     "inDegrees=yes".toList,
     "endheader".toList,
     "                time\t   R_ground_force_vx\t   R_ground_force_vy\t   R_ground_force_vz\t   R_ground_force_px\t   R_ground_force_py\t   R_ground_force_pz\t   L_ground_force_vx\t   L_ground_force_vy\t   L_ground_force_vz\t   L_ground_force_px\t   L_ground_force_py\t   L_ground_force_pz\t   R_ground_torque_x\t   R_ground_torque_y\t   R_ground_torque_z\t   L_ground_torque_x\t   L_ground_torque_y\t   L_ground_torque_z".toList,
     "          0.00000000\t          0.50000000\t          3.00000000\t         -1.75000000\t         -0.49200000\t          0.00000000\t          0.24300000\t          0.00000000\t          0.00000000\t          0.00000000\t          0.00000000\t          0.00000000\t          0.00000000\t          0.00000000\t          0.00000000\t          0.00000000\t          0.00000000\t          0.00000000\t          0.00000000".toList,
     "          0.01000000\t          0.50000000\t          3.00000000\t         -1.75000000\t         -0.49200000\t          0.00000000\t          0.24300000\t          0.00000000\t          0.00000000\t          0.00000000\t          0.00000000\t          0.00000000\t          0.00000000\t          0.00000000\t          0.00000000\t          0.00000000\t          0.00000000\t          0.00000000\t          0.00000000".toList,
     "          0.02000000\t          0.00000000\t          0.00000000\t          0.00000000\t          0.00000000\t          0.00000000\t          0.00000000\t          0.50000000\t          3.00000000\t         -1.75000000\t         -0.49200000\t          0.00000000\t          0.24300000\t          0.00000000\t          0.00000000\t          0.00000000\t          0.00000000\t          0.00000000\t          0.00000000".toList,
     "          0.03000000\t          0.00000000\t          0.00000000\t          0.00000000\t          0.00000000\t          0.00000000\t          0.00000000\t          0.50000000\t          3.00000000\t         -1.75000000\t         -0.49200000\t          0.00000000\t          0.24300000\t          0.00000000\t          0.00000000\t          0.00000000\t          0.00000000\t          0.00000000\t          0.00000000".toList]
    (by decide) (by decide) (by decide) (by decide)

/-- Claim C5 counterexample: a markerless two-line file converts successfully,
yet its output consists of the name and version lines only — it has no
endheader line, so the claimed preamble is not written; this refutes the
claim as stated over every successfully converted file. -/
theorem C5_preamble_counterexample :
    convert "nomarker.tsv" ["FREQUENCY\t100".toList, "no marker in this file".toList] =
      Except.ok ["nomarker.mot".toList, "version=1".toList] ∧
    "endheader".toList ∉ ["nomarker.mot".toList, "version=1".toList] :=
  ⟨by decide, by decide⟩
